import Mathlib

/-!
# CPUThread (rpcs3/Emu/CPU/CPUThread.cpp)

A shallow embedding of the virtual CPU context of `CPUThread.cpp`.

* `CPUThread` holds the member variables the file reads and writes.
* `World` pairs a context with the trace of calls the file's code makes to its
  collaborators (`Memory`, `Emu`, `ConLog`, `ThreadBase`, the debug notifier) and
  to the virtual members a subclass supplies.
* `Env` holds the answers of the collaborators' queries
  (`Emu.IsStopped()`, `Memory.IsGoodAddr(addr)`, ...).
* The virtual members (`DoReset`, `InitStack`, ...) are a parameter
  `V : VirtualId → CPUThread → CPUThread`: each may rewrite the context.

* The decoder behind `m_dec` is a parameter `D : Nat → CPUThread → DecodeResult`.
* The dispatch loop `Task` runs on fuel: `TaskLoop` makes at most `fuel` passes, and the
  pass numbered `k` sees the collaborators' answers `envs k`.

* Of `ExecOnce` the statements up to `ThreadBase::Start()` are embedded, as
  `ExecOnceStart`: after them it spins on `m_is_step` until the dispatch loop, running on
  the worker thread, clears the flag.

Unsigned 64-bit members are natural numbers; `+=` wraps modulo `2 ^ 64`.
-/

namespace Rpcs3

/-- The persistent run state stored in `m_status`. -/
inductive Status where
  | Stopped
  | Running
  | Paused
  deriving DecidableEq, Repr

/-- The values `ThreadStatus()` returns. -/
inductive CPUThreadStatus where
  | CPUThread_Stopped
  | CPUThread_Break
  | CPUThread_Step
  | CPUThread_Sleeping
  | CPUThread_Running
  deriving DecidableEq, Repr

/-- The debugger commands sent with `wxGetApp().SendDbgCommand`. -/
inductive DbgCommand where
  | DID_START_THREAD
  | DID_STARTED_THREAD
  | DID_RESUME_THREAD
  | DID_RESUMED_THREAD
  | DID_PAUSE_THREAD
  | DID_PAUSED_THREAD
  | DID_STOP_THREAD
  | DID_STOPED_THREAD
  | DID_EXEC_THREAD
  deriving DecidableEq, Repr

/-- The virtual members of `CPUThread` that `CPUThread.cpp` calls and a subclass defines. -/
inductive VirtualId where
  | DoReset
  | DoRun
  | DoResume
  | DoPause
  | DoStop
  | InitStack
  | InitRegs
  | Step
  deriving DecidableEq, Repr

/-- One call made by the code of `CPUThread.cpp` to a collaborator. -/
inductive Event where
  /-- The call `Memory.Free(addr)`. -/
  | MemoryFree (addr : Nat)
  /-- The call `Emu.Pause()`: a global pause request. -/
  | EmuPause
  /-- The call `Emu.CheckStatus()`. -/
  | EmuCheckStatus
  /-- The call `ThreadBase::Stop(false)`: the worker thread is asked to stop. -/
  | ThreadBaseStop
  /-- The call `ThreadBase::Start()`. -/
  | ThreadBaseStart
  /-- The call `ConLog.Error(...)` of `SetBranch`, with the two addresses it prints. -/
  | ConLogError (badAddr : Nat) (atPc : Nat)
  /-- The call `wxGetApp().SendDbgCommand(c, this)`. -/
  | SendDbgCommand (c : DbgCommand)
  /-- The call `CallStackBranch(pc)`, which records a call-stack entry. -/
  | CallStackBranch (pc : Nat)
  /-- The call of a virtual member. -/
  | Virtual (v : VirtualId)
  /-- The statement `delete m_dec` with the pointer it is applied to. -/
  | DeleteDec (dec : Option Nat)
  /-- The call `Sleep(1)` of the dispatch loop. -/
  | Sleep
  /-- The call `m_dec->DecodeMemory(addr)`. -/
  | DecodeMemory (addr : Nat)
  /-- The call `ConLog.Error("Exception: ...")` of a textual-fault handler. -/
  | ConLogException
  /-- The call `ConLog.Success("Exit Code: %d", exitcode)`. -/
  | ConLogSuccess (exitcode : Int)
  /-- The statement `free(this)`: the context itself is deallocated. -/
  | FreeThis
  deriving DecidableEq, Repr

/-- The member variables of a `CPUThread`. -/
structure CPUThread where
  m_status : Status
  m_error : Nat
  m_is_branch : Bool
  m_is_step : Bool
  m_stack_addr : Nat
  m_stack_size : Nat
  m_stack_point : Nat
  m_offset : Nat
  m_prio : Nat
  m_sync_wait : Bool
  m_wait_thread_id : Int
  m_free_data : Bool
  m_dec : Option Nat
  m_id : Nat
  entry : Nat
  PC : Nat
  nPC : Nat
  cycle : Nat
  deriving DecidableEq, Repr

/-- A context together with the calls its code has made so far, oldest first. -/
structure World where
  cpu : CPUThread
  trace : List Event
  deriving DecidableEq, Repr

/-- The answers of the collaborators that `CPUThread.cpp` queries. -/
structure Env where
  /-- The answer of `Emu.IsStopped()`. -/
  EmuIsStopped : Bool
  /-- The answer of `Emu.IsPaused()`. -/
  EmuIsPaused : Bool
  /-- The answer of `TestDestroy()`: cancellation of the worker thread was requested. -/
  TestDestroy : Bool
  /-- The answer of `IsAlive()` of the worker-thread runtime. -/
  IsAlive : Bool
  /-- The answer of `Memory.IsGoodAddr(addr)`. -/
  IsGoodAddr : Nat → Bool
  /-- The list `Emu.GetBreakPoints()`. -/
  BreakPoints : List Nat

/-- Truncation to an unsigned 64-bit value. -/
def u64 (n : Nat) : Nat := n % 2 ^ 64

/-- Truncation to an unsigned 8-bit value, the parameter type of `NextPc`. -/
def u8 (n : Nat) : Nat := n % 2 ^ 8

/-- Append one collaborator call to the trace. -/
def emit (e : Event) (w : World) : World :=
  { w with trace := w.trace ++ [e] }

/-- Call the virtual member `v`: it is recorded and may rewrite the context. -/
def callVirtual (V : VirtualId → CPUThread → CPUThread) (v : VirtualId) (w : World) : World :=
  { cpu := V v w.cpu, trace := w.trace ++ [Event.Virtual v] }

/-- A `SendDbgCommand` call, compiled only when `QT_UI` is not defined. -/
def SendDbgCommand (QT_UI : Bool) (c : DbgCommand) (w : World) : World :=
  if QT_UI then w else emit (Event.SendDbgCommand c) w

/-- Modelled from the spec: `IsRunning()` of the header, true when the persistent
status is `Running`. -/
def IsRunning (w : World) : Bool := decide (w.cpu.m_status = Status.Running)

/-- Modelled from the spec: `IsPaused()` of the header, true when the persistent
status is `Paused`. -/
def IsPaused (w : World) : Bool := decide (w.cpu.m_status = Status.Paused)

/-- Modelled from the spec: `IsStopped()` of the header, true when the persistent
status is `Stopped`. -/
def IsStopped (w : World) : Bool := decide (w.cpu.m_status = Status.Stopped)

/-- The constructor `CPUThread::CPUThread`: the members of its initialiser list, the
others (uninitialised in the source) taken from `junk`. -/
def construct (junk : CPUThread) : CPUThread :=
  { junk with
    m_stack_size := 0
    m_stack_addr := 0
    m_offset := 0
    m_prio := 0
    m_sync_wait := false
    m_wait_thread_id := -1
    m_free_data := false
    m_dec := none
    m_is_step := false
    m_is_branch := false }

/-- `CPUThread::Close`. -/
def Close (env : Env) (w : World) : World :=
  if env.IsAlive then
    emit Event.ThreadBaseStop { w with cpu := { w.cpu with m_free_data := true } }
  else
    let w1 := emit (Event.DeleteDec w.cpu.m_dec) w
    { w1 with cpu := { w1.cpu with m_dec := none } }

/-- `CPUThread::SetPc`. -/
def SetPc (pc : Nat) (w : World) : World :=
  { w with cpu := { w.cpu with PC := pc } }

/-- `CPUThread::CloseStack`. -/
def CloseStack (w : World) : World :=
  let w1 :=
    if w.cpu.m_stack_addr ≠ 0 then
      let w0 := emit (Event.MemoryFree w.cpu.m_stack_addr) w
      { w0 with cpu := { w0.cpu with m_stack_addr := 0 } }
    else w
  { w1 with cpu := { w1.cpu with m_stack_size := 0, m_stack_point := 0 } }

/-- `CPUThread::Reset`. -/
def Reset (V : VirtualId → CPUThread → CPUThread) (w : World) : World :=
  let w1 := CloseStack w
  let w2 := { w1 with cpu := { w1.cpu with m_sync_wait := false, m_wait_thread_id := -1 } }
  let w3 := SetPc 0 w2
  let w4 := { w3 with cpu := { w3.cpu with cycle := 0, m_is_branch := false } }
  let w5 := { w4 with cpu := { w4.cpu with m_status := Status.Stopped, m_error := 0 } }
  callVirtual V VirtualId.DoReset w5

/-- `CPUThread::SetId`. -/
def SetId (id : Nat) (w : World) : World :=
  { w with cpu := { w.cpu with m_id := id } }

/-- `CPUThread::Wait(bool)`. -/
def Wait (wait : Bool) (w : World) : World :=
  { w with cpu := { w.cpu with m_sync_wait := wait } }

/-- `CPUThread::Wait(const CPUThread&)`. -/
def WaitThread (thr : CPUThread) (w : World) : World :=
  { w with cpu := { w.cpu with m_wait_thread_id := (thr.m_id : Int), m_sync_wait := true } }

/-- `CPUThread::Sync`. -/
def Sync (w : World) : Bool := w.cpu.m_sync_wait

/-- `CPUThread::ThreadStatus`. -/
def ThreadStatus (env : Env) (w : World) : CPUThreadStatus :=
  if env.EmuIsStopped then CPUThreadStatus.CPUThread_Stopped
  else if env.TestDestroy then CPUThreadStatus.CPUThread_Break
  else if w.cpu.m_is_step then CPUThreadStatus.CPUThread_Step
  else if env.EmuIsPaused || Sync w then CPUThreadStatus.CPUThread_Sleeping
  else CPUThreadStatus.CPUThread_Running

/-- `CPUThread::SetEntry`. -/
def SetEntry (pc : Nat) (w : World) : World :=
  { w with cpu := { w.cpu with entry := pc } }

/-- `CPUThread::NextPc`. -/
def NextPc (instr_size : Nat) (w : World) : World :=
  if w.cpu.m_is_branch then
    let w1 := { w with cpu := { w.cpu with m_is_branch := false } }
    SetPc w1.cpu.nPC w1
  else
    { w with cpu := { w.cpu with PC := u64 (w.cpu.PC + instr_size) } }

/-- `CPUThread::SetBranch`. -/
def SetBranch (env : Env) (pc : Nat) (record_branch : Bool) (w : World) : World :=
  let w1 :=
    if !env.IsGoodAddr (u64 (w.cpu.m_offset + pc)) then
      emit Event.EmuPause
        (emit (Event.ConLogError (u64 (w.cpu.m_offset + pc)) (u64 (w.cpu.m_offset + w.cpu.PC))) w)
    else w
  let w2 := { w1 with cpu := { w1.cpu with m_is_branch := true } }
  let w3 := { w2 with cpu := { w2.cpu with nPC := pc } }
  if record_branch then emit (Event.CallStackBranch pc) w3 else w3

/-- `CPUThread::SetError`. -/
def SetError (error : Nat) (w : World) : World :=
  if error = 0 then
    { w with cpu := { w.cpu with m_error := 0 } }
  else
    { w with cpu := { w.cpu with m_error := w.cpu.m_error ||| error } }

/-- `CPUThread::ErrorToString`. -/
def ErrorToString (error : Nat) : List String :=
  if error = 0 then [] else [] ++ ["Unknown error"]

/-- `CPUThread::Resume`. -/
def Resume (QT_UI : Bool) (V : VirtualId → CPUThread → CPUThread) (w : World) : World :=
  if !IsPaused w then w
  else
    let w1 := SendDbgCommand QT_UI DbgCommand.DID_RESUME_THREAD w
    let w2 := { w1 with cpu := { w1.cpu with m_status := Status.Running } }
    let w3 := callVirtual V VirtualId.DoResume w2
    let w4 := emit Event.EmuCheckStatus w3
    let w5 := emit Event.ThreadBaseStart w4
    SendDbgCommand QT_UI DbgCommand.DID_RESUMED_THREAD w5

/-- `CPUThread::Pause`. -/
def Pause (QT_UI : Bool) (V : VirtualId → CPUThread → CPUThread) (w : World) : World :=
  if !IsRunning w then w
  else
    let w1 := SendDbgCommand QT_UI DbgCommand.DID_PAUSE_THREAD w
    let w2 := { w1 with cpu := { w1.cpu with m_status := Status.Paused } }
    let w3 := callVirtual V VirtualId.DoPause w2
    let w4 := emit Event.EmuCheckStatus w3
    let w5 := emit Event.ThreadBaseStop w4
    SendDbgCommand QT_UI DbgCommand.DID_PAUSED_THREAD w5

/-- `CPUThread::Stop`. -/
def Stop (QT_UI : Bool) (V : VirtualId → CPUThread → CPUThread) (w : World) : World :=
  if IsStopped w then w
  else
    let w1 := SendDbgCommand QT_UI DbgCommand.DID_STOP_THREAD w
    let w2 := { w1 with cpu := { w1.cpu with m_status := Status.Stopped } }
    let w3 := emit Event.ThreadBaseStop w2
    let w4 := Reset V w3
    let w5 := callVirtual V VirtualId.DoStop w4
    let w6 := emit Event.EmuCheckStatus w5
    SendDbgCommand QT_UI DbgCommand.DID_STOPED_THREAD w6

/-- `CPUThread::Run`. -/
def Run (QT_UI : Bool) (V : VirtualId → CPUThread → CPUThread) (w : World) : World :=
  let w0 := if IsRunning w then Stop QT_UI V w else w
  if IsPaused w0 then Resume QT_UI V w0
  else
    let w1 := SendDbgCommand QT_UI DbgCommand.DID_START_THREAD w0
    let w2 := { w1 with cpu := { w1.cpu with m_status := Status.Running } }
    let w3 := SetPc w2.cpu.entry w2
    let w4 := callVirtual V VirtualId.InitStack w3
    let w5 := callVirtual V VirtualId.InitRegs w4
    let w6 := callVirtual V VirtualId.DoRun w5
    let w7 := emit Event.EmuCheckStatus w6
    SendDbgCommand QT_UI DbgCommand.DID_STARTED_THREAD w7

/-- Modelled from the spec: the outcomes of the decoder collaborator's
`decodeAndExecute(address)`, called as `m_dec->DecodeMemory(addr)`, whose code is not in
the file. It executes the instruction, which may rewrite the context, and returns the
instruction's size; or it raises a textual fault (a `wxString` or a `const char*`); or it
raises an exit-code signal (an `int`); or, being C++ code, it raises an exception of any
other type. Each outcome carries the context as the call leaves it. -/
inductive DecodeResult where
  | size (n : Nat) (c : CPUThread)
  | throwString (c : CPUThread)
  | throwChars (c : CPUThread)
  | throwInt (exitcode : Int) (c : CPUThread)
  | throwOther (c : CPUThread)

/-- The context a decoder call leaves behind. -/
def DecodeResult.cpu : DecodeResult → CPUThread
  | DecodeResult.size _ c => c
  | DecodeResult.throwString c => c
  | DecodeResult.throwChars c => c
  | DecodeResult.throwInt _ c => c
  | DecodeResult.throwOther c => c

/-- How control leaves the `try` block of `Task`. The block has three handlers and no
`catch(...)`. -/
inductive TaskExit where
  /-- The `break` taken when the status is `CPUThread_Stopped` or `CPUThread_Break`. -/
  | statusBreak
  /-- The `break` taken after the instruction when the status was `CPUThread_Step`. -/
  | stepBreak
  /-- The handler `catch(const wxString& e)`. -/
  | caughtString
  /-- The handler `catch(const char* e)`. -/
  | caughtChars
  /-- The handler `catch(int exitcode)`. -/
  | caughtInt (exitcode : Int)
  /-- An exception that none of the three handlers matches: it leaves `Task` and reaches
  the caller. -/
  | uncaught
  /-- The loop was still running when the fuel of the model ran out. -/
  | unfinished
  deriving DecidableEq, Repr

/-- What one pass through the body of `while(true)` ends in. -/
inductive IterationResult where
  /-- Control leaves the `try` block. -/
  | exit (e : TaskExit) (w : World)
  /-- Control returns to the head of the loop, for the next status check. -/
  | next (w : World)

/-- The breakpoint scan of `Task`: the `for` loop that calls `Emu.Pause()` and breaks at
the first entry equal to `addr`. -/
def breakPointCheck : List Nat → Nat → World → World
  | [], _, w => w
  | b :: rest, addr, w =>
      if b = addr then emit Event.EmuPause w else breakPointCheck rest addr w

/-- One pass through the body of the `while(true)` loop of `CPUThread::Task`, with the
collaborators answering as in `env`, the breakpoint list `bp` and the decoder `D`. -/
def TaskIteration (V : VirtualId → CPUThread → CPUThread) (D : Nat → CPUThread → DecodeResult)
    (env : Env) (bp : List Nat) (w : World) : IterationResult :=
  let status := ThreadStatus env w
  if status = CPUThreadStatus.CPUThread_Stopped ∨ status = CPUThreadStatus.CPUThread_Break then
    IterationResult.exit TaskExit.statusBreak w
  else if status = CPUThreadStatus.CPUThread_Sleeping then
    IterationResult.next (emit Event.Sleep w)
  else
    let w1 := callVirtual V VirtualId.Step w
    let addr := u64 (w1.cpu.PC + w1.cpu.m_offset)
    let w2 := emit (Event.DecodeMemory addr) w1
    match D addr w2.cpu with
    | DecodeResult.throwString c => IterationResult.exit TaskExit.caughtString { w2 with cpu := c }
    | DecodeResult.throwChars c => IterationResult.exit TaskExit.caughtChars { w2 with cpu := c }
    | DecodeResult.throwInt exitcode c =>
        IterationResult.exit (TaskExit.caughtInt exitcode) { w2 with cpu := c }
    | DecodeResult.throwOther c => IterationResult.exit TaskExit.uncaught { w2 with cpu := c }
    | DecodeResult.size n c =>
        let w3 := NextPc (u8 n) { w2 with cpu := c }
        if status = CPUThreadStatus.CPUThread_Step then
          IterationResult.exit TaskExit.stepBreak
            { w3 with cpu := { w3.cpu with m_is_step := false } }
        else
          IterationResult.next (breakPointCheck bp w3.cpu.PC w3)

/-- The `while(true)` loop of `CPUThread::Task`, run for at most `fuel` passes; the pass
numbered `k` sees the collaborators' answers `envs k`. -/
def TaskLoop (V : VirtualId → CPUThread → CPUThread) (D : Nat → CPUThread → DecodeResult)
    (envs : Nat → Env) (bp : List Nat) : Nat → Nat → World → TaskExit × World
  | 0, _, w => (TaskExit.unfinished, w)
  | fuel + 1, k, w =>
      match TaskIteration V D (envs k) bp w with
      | IterationResult.exit e w1 => (e, w1)
      | IterationResult.next w1 => TaskLoop V D envs bp fuel (k + 1) w1

/-- The end of `CPUThread::Task`, after the handlers: the self-free under `m_free_data`. -/
def TaskCleanup (w : World) : World :=
  if w.cpu.m_free_data then
    let w1 := emit (Event.DeleteDec w.cpu.m_dec) w
    let w2 := { w1 with cpu := { w1.cpu with m_dec := none } }
    emit Event.FreeThis w2
  else w

/-- `CPUThread::Task`, with the loop run for at most `fuel` passes. The breakpoint list is
read once, on entry. -/
def Task (V : VirtualId → CPUThread → CPUThread) (D : Nat → CPUThread → DecodeResult)
    (envs : Nat → Env) (fuel : Nat) (w : World) : TaskExit × World :=
  let bp := (envs 0).BreakPoints
  let w0 := breakPointCheck bp (u64 (w.cpu.m_offset + w.cpu.PC)) w
  match TaskLoop V D envs bp fuel 0 w0 with
  | (TaskExit.statusBreak, w1) => (TaskExit.statusBreak, TaskCleanup w1)
  | (TaskExit.stepBreak, w1) => (TaskExit.stepBreak, TaskCleanup w1)
  | (TaskExit.caughtString, w1) =>
      (TaskExit.caughtString, TaskCleanup (emit Event.ConLogException w1))
  | (TaskExit.caughtChars, w1) =>
      (TaskExit.caughtChars, TaskCleanup (emit Event.ConLogException w1))
  | (TaskExit.caughtInt exitcode, w1) =>
      (TaskExit.caughtInt exitcode, emit (Event.ConLogSuccess exitcode) w1)
  | (TaskExit.uncaught, w1) => (TaskExit.uncaught, w1)
  | (TaskExit.unfinished, w1) => (TaskExit.unfinished, w1)

/-- The address the loop body passes to the decoder from the world `w`: `PC + m_offset`,
read after the `Step()` hook. -/
def decodeAddr (V : VirtualId → CPUThread → CPUThread) (w : World) : Nat :=
  u64 ((V VirtualId.Step w.cpu).PC + (V VirtualId.Step w.cpu).m_offset)

/-- The world after the loop body has called `Step()` and the decoder, which returned the
size `n` and left the context `c`, and then `NextPc` once with that size. -/
def afterInstruction (V : VirtualId → CPUThread → CPUThread) (w : World) (n : Nat)
    (c : CPUThread) : World :=
  NextPc (u8 n)
    { cpu := c,
      trace := w.trace ++ [Event.Virtual VirtualId.Step, Event.DecodeMemory (decodeAddr V w)] }

/-- The decoder calls among a list of events. -/
def decodeCalls (evs : List Event) : List Event :=
  evs.filter (fun e => match e with
    | Event.DecodeMemory _ => true
    | _ => false)

/-- The program counter. -/
def pcField (c : CPUThread) : Nat := c.PC

/-- The error flags. -/
def errorField (c : CPUThread) : Nat := c.m_error

/-- The decoder does not write the members selected by `proj`, whatever its outcome. -/
def DecoderKeeps {α : Type} (proj : CPUThread → α) (D : Nat → CPUThread → DecodeResult) :
    Prop :=
  ∀ (addr : Nat) (c : CPUThread), proj (D addr c).cpu = proj c

/-- The world an iteration result carries. -/
def IterationResult.world : IterationResult → World
  | IterationResult.exit _ w => w
  | IterationResult.next w => w

/-- The calls the body of the `while(true)` loop makes: `Sleep(1)`, `Step()`, the decoder
call and the pause request of the breakpoint scan. -/
def isLoopEvent : Event → Bool
  | Event.Sleep => true
  | Event.Virtual VirtualId.Step => true
  | Event.DecodeMemory _ => true
  | Event.EmuPause => true
  | _ => false

/-- The statements that release the decoder or the context: `delete m_dec` and
`free(this)`. -/
def isRelease : Event → Bool
  | Event.DeleteDec _ => true
  | Event.FreeThis => true
  | _ => false

/-- The calls `Memory.Free(addr)`. -/
def isMemoryFree : Event → Bool
  | Event.MemoryFree _ => true
  | _ => false

/-- What `Task` does after its `try` block, by the way control left the block: the
textual-fault handlers log and fall through to the self-free, the exit-code handler logs
and returns, the two `break`s fall through to the self-free, an exception without a
handler skips the rest of `Task`. -/
def taskTail : TaskExit → World → World
  | TaskExit.statusBreak, w => TaskCleanup w
  | TaskExit.stepBreak, w => TaskCleanup w
  | TaskExit.caughtString, w => TaskCleanup (emit Event.ConLogException w)
  | TaskExit.caughtChars, w => TaskCleanup (emit Event.ConLogException w)
  | TaskExit.caughtInt exitcode, w => emit (Event.ConLogSuccess exitcode) w
  | TaskExit.uncaught, w => w
  | TaskExit.unfinished, w => w

/-! ## Concrete contexts and collaborators used to instantiate the theorems -/

/-- Virtual members that leave the context as it is. -/
def noVirtuals : VirtualId → CPUThread → CPUThread := fun _ c => c

/-- Virtual members of a subclass whose `InitStack` allocates a stack at `0x10000`, whose
`DoRun` creates a decoder and whose other members leave the context as it is. -/
def stackVirtuals : VirtualId → CPUThread → CPUThread
  | VirtualId.InitStack, c =>
      { c with m_stack_addr := 0x10000, m_stack_size := 0x1000, m_stack_point := 0x11000 }
  | VirtualId.DoRun, c => { c with m_dec := some 1 }
  | _, c => c

/-- A context as the constructor leaves it, with the uninitialised members zero and the
status `Stopped`. -/
def freshThread : CPUThread :=
  construct
    { m_status := Status.Stopped, m_error := 0, m_is_branch := true, m_is_step := true,
      m_stack_addr := 7, m_stack_size := 7, m_stack_point := 0, m_offset := 7, m_prio := 7,
      m_sync_wait := true, m_wait_thread_id := 7, m_free_data := true, m_dec := some 7,
      m_id := 0, entry := 0, PC := 0, nPC := 0, cycle := 0 }

/-- The fresh context with an empty trace. -/
def freshWorld : World := { cpu := freshThread, trace := [] }

/-- A running emulator (not stopped, not paused, no cancellation, worker not alive) whose
memory maps exactly the addresses below `0x100000`, with one breakpoint at `0x1008`. -/
def sampleEnv : Env :=
  { EmuIsStopped := false, EmuIsPaused := false, TestDestroy := false, IsAlive := false,
    IsGoodAddr := fun a => decide (a < 0x100000), BreakPoints := [0x1008] }

/-- A decoder whose instructions are 4 bytes long: the one at `0x1004` sets a pending
branch to `0x2000`, the one at `0x3000` raises the exit code `7`, the one at `0x3004`
raises a `const char*` fault, the one at `0x3008` raises a `wxString` fault, the one at
`0x300c` raises an exception of another type, and every other one only returns its
size. -/
def sampleDecoder : Nat → CPUThread → DecodeResult := fun addr c =>
  if addr = 0x1004 then DecodeResult.size 4 { c with m_is_branch := true, nPC := 0x2000 }
  else if addr = 0x3000 then DecodeResult.throwInt 7 c
  else if addr = 0x3004 then DecodeResult.throwChars c
  else if addr = 0x3008 then DecodeResult.throwString c
  else if addr = 0x300c then DecodeResult.throwOther c
  else DecodeResult.size 4 c

/-- Collaborators that give the answers `env` at every status check. -/
def constEnvs (env : Env) : Nat → Env := fun _ => env

/-- Collaborators that give the answers `env` at the status checks before the one numbered
`n`, and report the emulator stopped from then on. -/
def stopAt (n : Nat) (env : Env) : Nat → Env := fun k =>
  if k < n then env else { env with EmuIsStopped := true }

/-- A context at `pc` that is to free itself: `m_free_data` is set, the decoder `1` exists
and the stack is at `0x10000`; no branch is pending and the gate is open. -/
def doomedWorld (pc : Nat) : World :=
  { cpu :=
      { freshThread with
        PC := pc, m_free_data := true, m_dec := some 1, m_stack_addr := 0x10000,
        m_stack_size := 0x1000, m_stack_point := 0x11000, m_status := Status.Running },
    trace := [] }

/-- A running context at `pc` with the decoder `1`, no branch pending, the gate open and
the single-step flag clear. -/
def readyWorld (pc : Nat) : World :=
  { cpu := { freshThread with PC := pc, m_dec := some 1, m_status := Status.Running },
    trace := [] }

/-- The ready context at `pc` with the single-step flag set. -/
def steppingWorld (pc : Nat) : World :=
  { cpu :=
      { freshThread with
        PC := pc, m_dec := some 1, m_status := Status.Running, m_is_step := true },
    trace := [] }

/-- A `Stopped` context on which a branch to `0x2000` was set after the last reset, started
with `Run()` from the entry `0x1000`. -/
def staleBranchWorld : World :=
  Run false stackVirtuals
    (SetEntry 0x1000 (SetBranch sampleEnv 0x2000 false (Reset stackVirtuals freshWorld)))

/-! ## Lifecycle calls, the transition table and frame conditions on virtual members -/

/-- The four lifecycle calls of the persistent state machine. -/
inductive LifecycleCall where
  | Run
  | Pause
  | Resume
  | Stop
  deriving DecidableEq, Repr

/-- Make one lifecycle call. -/
def applyCall (QT_UI : Bool) (V : VirtualId → CPUThread → CPUThread) :
    LifecycleCall → World → World
  | LifecycleCall.Run, w => Run QT_UI V w
  | LifecycleCall.Pause, w => Pause QT_UI V w
  | LifecycleCall.Resume, w => Resume QT_UI V w
  | LifecycleCall.Stop, w => Stop QT_UI V w

/-- The transition table of the specification: `Run` gives `Running`, `Pause` turns
`Running` into `Paused`, `Resume` turns `Paused` into `Running`, `Stop` gives `Stopped`;
every other combination leaves the status as it is. -/
def transitionTable : LifecycleCall → Status → Status
  | LifecycleCall.Run, _ => Status.Running
  | LifecycleCall.Pause, Status.Running => Status.Paused
  | LifecycleCall.Pause, s => s
  | LifecycleCall.Resume, Status.Paused => Status.Running
  | LifecycleCall.Resume, s => s
  | LifecycleCall.Stop, _ => Status.Stopped

/-- The virtual member `f` does not write the members selected by `proj`. -/
def Keeps {α : Type} (proj : CPUThread → α) (f : CPUThread → CPUThread) : Prop :=
  ∀ c : CPUThread, proj (f c) = proj c

/-- The persistent status. -/
def statusField (c : CPUThread) : Status := c.m_status

/-- The program counter, the cycle count and the three stack members. -/
def pcCycleStack (c : CPUThread) : Nat × Nat × Nat × Nat × Nat :=
  (c.PC, c.cycle, c.m_stack_addr, c.m_stack_size, c.m_stack_point)

/-- The members `Reset` assigns: status, error flags, pending-branch flag, sync gate,
program counter, cycle count and stack. -/
def resetFields (c : CPUThread) :
    Status × Nat × Bool × Bool × Int × Nat × Nat × Nat × Nat × Nat :=
  (c.m_status, c.m_error, c.m_is_branch, c.m_sync_wait, c.m_wait_thread_id,
    c.PC, c.cycle, c.m_stack_addr, c.m_stack_size, c.m_stack_point)

/-- The members a pause and resume cycle is to hand back: status, both program counters,
pending-branch flag, cycle count, error flags, stack, sync gate and single-step flag. -/
def pausedFields (c : CPUThread) :
    Status × Nat × Nat × Bool × Nat × Nat × Nat × Nat × Nat × Bool × Int × Bool :=
  (c.m_status, c.PC, c.nPC, c.m_is_branch, c.cycle, c.m_error,
    c.m_stack_addr, c.m_stack_size, c.m_stack_point, c.m_sync_wait, c.m_wait_thread_id,
    c.m_is_step)

/-- The debugger notification of command `c`: present unless `QT_UI` is defined. -/
def dbgEvents (QT_UI : Bool) (c : DbgCommand) : List Event :=
  if QT_UI then [] else [Event.SendDbgCommand c]

/-- The `Memory.Free` call of `CloseStack` for the stack address `addr`: present unless the
address is zero. -/
def freeEvents (addr : Nat) : List Event :=
  if addr = 0 then [] else [Event.MemoryFree addr]

/-- A context running at `0x1000` with a stack at `0x10000`, a pending branch, error flags
and a blocked gate. -/
def busyThread : CPUThread :=
  { m_status := Status.Running, m_error := 5, m_is_branch := true, m_is_step := false,
    m_stack_addr := 0x10000, m_stack_size := 0x1000, m_stack_point := 0x10ff0, m_offset := 0,
    m_prio := 1, m_sync_wait := true, m_wait_thread_id := 3, m_free_data := false,
    m_dec := some 1, m_id := 2, entry := 0x1000, PC := 0x1000, nPC := 0x2000, cycle := 9 }

/-- The busy context with an empty trace. -/
def busyWorld : World := { cpu := busyThread, trace := [] }

/-! ## The stopped-context invariant and the public operations -/

/-- The invariant of the data model: a `Stopped` context has no stack, `PC = 0` and
`cycle = 0`. -/
def StoppedInvariant (c : CPUThread) : Prop :=
  c.m_status = Status.Stopped → c.m_stack_addr = 0 ∧ c.PC = 0 ∧ c.cycle = 0

instance (c : CPUThread) : Decidable (StoppedInvariant c) := by
  unfold StoppedInvariant
  infer_instance

/-- The public operations that keep the stopped-context invariant. -/
inductive Op where
  | Run
  | Pause
  | Resume
  | Stop
  | Close
  | SetBranch (pc : Nat) (record_branch : Bool)
  | SetError (error : Nat)
  | Wait (wait : Bool)
  | WaitThread (thr : CPUThread)
  | SetEntry (pc : Nat)
  | SetId (id : Nat)

/-- Perform one public operation, with the collaborators answering as in `env`. -/
def applyOp (QT_UI : Bool) (V : VirtualId → CPUThread → CPUThread) (env : Env) :
    Op → World → World
  | Op.Run, w => Run QT_UI V w
  | Op.Pause, w => Pause QT_UI V w
  | Op.Resume, w => Resume QT_UI V w
  | Op.Stop, w => Stop QT_UI V w
  | Op.Close, w => Close env w
  | Op.SetBranch pc record_branch, w => SetBranch env pc record_branch w
  | Op.SetError error, w => SetError error w
  | Op.Wait wait, w => Wait wait w
  | Op.WaitThread thr, w => WaitThread thr w
  | Op.SetEntry pc, w => SetEntry pc w
  | Op.SetId id, w => SetId id w

/-- Perform a sequence of public operations, each under its own collaborator answers. -/
def runOps (QT_UI : Bool) (V : VirtualId → CPUThread → CPUThread) :
    List (Env × Op) → World → World
  | [], w => w
  | (env, op) :: rest, w => runOps QT_UI V rest (applyOp QT_UI V env op w)

/-- The program counter, the cycle count and the stack address. -/
def invFields (c : CPUThread) : Nat × Nat × Nat := (c.PC, c.cycle, c.m_stack_addr)

/-! ## The operations a blocked context may undergo -/

/-- The first rule of a precedence list whose condition holds, or the default. -/
def firstMatch : List (Bool × CPUThreadStatus) → CPUThreadStatus → CPUThreadStatus
  | [], dflt => dflt
  | (c, r) :: rest, dflt => if c then r else firstMatch rest dflt

/-- The precedence list of the derived execution status, in the specification's order. -/
def statusRules (stopped cancel step paused blocked : Bool) : List (Bool × CPUThreadStatus) :=
  [ (stopped, CPUThreadStatus.CPUThread_Stopped),
    (cancel, CPUThreadStatus.CPUThread_Break),
    (step, CPUThreadStatus.CPUThread_Step),
    (paused || blocked, CPUThreadStatus.CPUThread_Sleeping) ]

/-! ## Program counter and branch unit -/

/-- C1: for every size `s` (the 8-bit sizes among them), `NextPc(s)` with no branch pending
sets `PC` to `(PC + s) mod 2^64` and keeps the flag clear; with a branch pending it sets `PC`
to the stored `nPC` and clears the flag, whatever `s` is; `nPC` is never changed. -/
theorem NextPc_advance (w : World) (s : Nat) :
    (w.cpu.m_is_branch = false →
      (NextPc s w).cpu.PC = (w.cpu.PC + s) % 2 ^ 64 ∧ (NextPc s w).cpu.m_is_branch = false) ∧
    (w.cpu.m_is_branch = true →
      (NextPc s w).cpu.PC = w.cpu.nPC ∧ (NextPc s w).cpu.m_is_branch = false ∧
        ∀ s2 : Nat, NextPc s2 w = NextPc s w) ∧
    (NextPc s w).cpu.nPC = w.cpu.nPC := by
  refine ⟨?_, ?_, ?_⟩
  · intro h
    simp [NextPc, h, u64]
  · intro h
    simp [NextPc, h, SetPc]
  · cases h : w.cpu.m_is_branch <;> simp [NextPc, h, SetPc]

/-- C1 at concrete contexts: a 4-byte advance from `PC = 2^64 - 2` wraps to `2`, and with a
branch to `0x2000` pending the advance lands on `0x2000`. -/
theorem NextPc_advance_witness :
    (NextPc 4 { freshWorld with cpu := { freshThread with PC := 2 ^ 64 - 2 } }).cpu.PC = 2 ∧
    (NextPc 4 { freshWorld with cpu :=
        { freshThread with m_is_branch := true, nPC := 0x2000 } }).cpu.PC = 0x2000 := by
  constructor
  · have h := (NextPc_advance
      { freshWorld with cpu := { freshThread with PC := 2 ^ 64 - 2 } } 4).1 rfl
    exact h.1.trans (by decide)
  · exact ((NextPc_advance
      { freshWorld with cpu := { freshThread with m_is_branch := true, nPC := 0x2000 } } 4).2.1
        rfl).1

/-- C2 (as stated) fails: with every address reported invalid, `SetBranch(0x2000, false)` on
the fresh context (where `nPC = 0`) issues its pause request and still stores the target in
`nPC`. -/
theorem SetBranch_bad_addr_overwrites_nPC :
    ({ sampleEnv with IsGoodAddr := fun _ => false } : Env).IsGoodAddr
        (u64 (freshWorld.cpu.m_offset + 0x2000)) = false ∧
    freshWorld.cpu.nPC = 0 ∧
    (SetBranch { sampleEnv with IsGoodAddr := fun _ => false } 0x2000 false freshWorld).cpu.nPC
      = 0x2000 ∧
    (SetBranch { sampleEnv with IsGoodAddr := fun _ => false } 0x2000 false freshWorld).cpu.nPC
      ≠ freshWorld.cpu.nPC := by
  refine ⟨rfl, rfl, rfl, ?_⟩
  decide

/-- C2 (amended): when `m_offset + t` is not a valid address, `SetBranch(t, r)` leaves `PC`
unchanged, logs the error and issues exactly one pause request, and then, as on the valid
path, sets the pending-branch flag and stores `t` in `nPC`. -/
theorem SetBranch_bad_addr (env : Env) (w : World) (t : Nat) (r : Bool)
    (hbad : env.IsGoodAddr (u64 (w.cpu.m_offset + t)) = false) :
    (SetBranch env t r w).cpu.PC = w.cpu.PC ∧
    (SetBranch env t r w).cpu.nPC = t ∧
    (SetBranch env t r w).cpu.m_is_branch = true ∧
    (SetBranch env t r w).trace =
      w.trace ++ [Event.ConLogError (u64 (w.cpu.m_offset + t)) (u64 (w.cpu.m_offset + w.cpu.PC)),
        Event.EmuPause] ++ (if r then [Event.CallStackBranch t] else []) ∧
    (SetBranch env t r w).trace.count Event.EmuPause = w.trace.count Event.EmuPause + 1 := by
  cases r <;> simp [SetBranch, hbad, emit, List.count_append, List.count_cons]

/-- C2 (amended) at a concrete context: a branch to the unmapped `0x200000`. -/
theorem SetBranch_bad_addr_witness :
    sampleEnv.IsGoodAddr (u64 (freshWorld.cpu.m_offset + 0x200000)) = false ∧
    (SetBranch sampleEnv 0x200000 true freshWorld).cpu.nPC = 0x200000 ∧
    (SetBranch sampleEnv 0x200000 true freshWorld).trace.count Event.EmuPause = 1 := by
  have h := SetBranch_bad_addr sampleEnv freshWorld 0x200000 true (by decide)
  exact ⟨by decide, h.2.1, h.2.2.2.2⟩

/-- C3: when `m_offset + t` is a valid address, `SetBranch(t, r)` issues no pause request
(the only call it makes is `CallStackBranch(t)`, exactly when `r`), leaves `PC` unchanged,
sets the pending-branch flag and stores `t` in `nPC`; a following `NextPc(s)` then yields
`PC = t` with the flag clear, for every `s`. -/
theorem SetBranch_good_addr (env : Env) (w : World) (t : Nat) (r : Bool)
    (hgood : env.IsGoodAddr (u64 (w.cpu.m_offset + t)) = true) :
    (SetBranch env t r w).trace = w.trace ++ (if r then [Event.CallStackBranch t] else []) ∧
    (SetBranch env t r w).trace.count Event.EmuPause = w.trace.count Event.EmuPause ∧
    (Event.CallStackBranch t ∈ (SetBranch env t r w).trace.drop w.trace.length ↔ r = true) ∧
    (SetBranch env t r w).cpu.PC = w.cpu.PC ∧
    (SetBranch env t r w).cpu.m_is_branch = true ∧
    (SetBranch env t r w).cpu.nPC = t ∧
    ∀ s : Nat, (NextPc s (SetBranch env t r w)).cpu.PC = t ∧
      (NextPc s (SetBranch env t r w)).cpu.m_is_branch = false := by
  cases r <;> simp [SetBranch, hgood, emit, NextPc, SetPc, List.count_append, List.count_cons]

/-- C3 at the specification's scenario: `SetBranch(0x2000, false)` then `NextPc(4)`. -/
theorem SetBranch_good_addr_witness :
    sampleEnv.IsGoodAddr (u64 (freshWorld.cpu.m_offset + 0x2000)) = true ∧
    (NextPc 4 (SetBranch sampleEnv 0x2000 false freshWorld)).cpu.PC = 0x2000 ∧
    (NextPc 4 (SetBranch sampleEnv 0x2000 false freshWorld)).cpu.m_is_branch = false :=
  ⟨by decide, (SetBranch_good_addr sampleEnv freshWorld 0x2000 false (by decide)).2.2.2.2.2.2 4⟩

/-! ## Derived execution status -/

/-- C4: `ThreadStatus` is the first match of the precedence list (emulator stopped, then
cancellation, then single step, then emulator paused or gate blocked, else running); with
the emulator not stopped and both cancellation and single step set the result is `Break`. -/
theorem ThreadStatus_precedence (env : Env) (w : World) :
    ThreadStatus env w =
        firstMatch
          (statusRules env.EmuIsStopped env.TestDestroy w.cpu.m_is_step env.EmuIsPaused
            w.cpu.m_sync_wait)
          CPUThreadStatus.CPUThread_Running ∧
    (env.EmuIsStopped = true → ThreadStatus env w = CPUThreadStatus.CPUThread_Stopped) ∧
    (env.EmuIsStopped = false → env.TestDestroy = true →
      ThreadStatus env w = CPUThreadStatus.CPUThread_Break) ∧
    (env.EmuIsStopped = false → env.TestDestroy = false → w.cpu.m_is_step = true →
      ThreadStatus env w = CPUThreadStatus.CPUThread_Step) ∧
    (env.EmuIsStopped = false → env.TestDestroy = false → w.cpu.m_is_step = false →
      (env.EmuIsPaused = true ∨ w.cpu.m_sync_wait = true) →
      ThreadStatus env w = CPUThreadStatus.CPUThread_Sleeping) ∧
    (env.EmuIsStopped = false → env.TestDestroy = false → w.cpu.m_is_step = false →
      env.EmuIsPaused = false → w.cpu.m_sync_wait = false →
      ThreadStatus env w = CPUThreadStatus.CPUThread_Running) := by
  refine ⟨?_, ?_, ?_, ?_, ?_, ?_⟩
  · simp [ThreadStatus, firstMatch, statusRules, Sync]
  · intro h1
    simp [ThreadStatus, h1]
  · intro h1 h2
    simp [ThreadStatus, h1, h2]
  · intro h1 h2 h3
    simp [ThreadStatus, h1, h2, h3]
  · intro h1 h2 h3 h4
    rcases h4 with h4 | h4 <;> simp [ThreadStatus, Sync, h1, h2, h3, h4]
  · intro h1 h2 h3 h4 h5
    simp [ThreadStatus, Sync, h1, h2, h3, h4, h5]

/-- C4 at the specification's scenario: cancellation requested and single-stepping at once,
emulator not stopped, gives `Break`. -/
theorem ThreadStatus_precedence_witness :
    ThreadStatus { sampleEnv with TestDestroy := true }
      { freshWorld with cpu := { freshThread with m_is_step := true } }
      = CPUThreadStatus.CPUThread_Break :=
  (ThreadStatus_precedence { sampleEnv with TestDestroy := true }
    { freshWorld with cpu := { freshThread with m_is_step := true } }).2.2.1 rfl rfl

/-! ## Lifecycle -/

/-- The sample subclass does not write `m_status` in any virtual member. -/
theorem stackVirtuals_keeps_status (v : VirtualId) : Keeps statusField (stackVirtuals v) := by
  intro c
  cases v <;> rfl

/-- One lifecycle call moves the persistent status as the transition table says, when no
virtual member writes `m_status`. -/
theorem applyCall_status (QT_UI : Bool) (V : VirtualId → CPUThread → CPUThread)
    (hV : ∀ v, Keeps statusField (V v)) (c : LifecycleCall) (w : World) :
    (applyCall QT_UI V c w).cpu.m_status = transitionTable c w.cpu.m_status := by
  have hk : ∀ v x, (V v x).m_status = x.m_status := fun v x => hV v x
  cases c <;> cases hs : w.cpu.m_status <;> cases QT_UI <;>
    simp [applyCall, transitionTable, Run, Pause, Resume, Stop, Reset, CloseStack, SetPc,
      IsRunning, IsPaused, IsStopped, SendDbgCommand, callVirtual, emit, hk, hs]

/-- C5: when no virtual member writes `m_status`, the persistent statuses after each call of
a sequence of `Run`/`Pause`/`Resume`/`Stop` calls are those of the transition table; `Pause`
on a `Stopped` context and `Resume` on a `Running` context change nothing at all. -/
theorem lifecycle_follows_table (QT_UI : Bool) (V : VirtualId → CPUThread → CPUThread)
    (hV : ∀ v, Keeps statusField (V v)) (calls : List LifecycleCall) (w : World) :
    (calls.scanl (fun x c => applyCall QT_UI V c x) w).map (fun x => x.cpu.m_status)
        = calls.scanl (fun s c => transitionTable c s) w.cpu.m_status ∧
    (w.cpu.m_status = Status.Stopped → Pause QT_UI V w = w) ∧
    (w.cpu.m_status = Status.Running → Resume QT_UI V w = w) := by
  refine ⟨?_, ?_, ?_⟩
  · induction calls generalizing w with
    | nil => simp
    | cons c cs ih =>
      simp only [List.scanl, List.map_cons]
      rw [ih (applyCall QT_UI V c w), applyCall_status QT_UI V hV c w]
  · intro hs
    simp [Pause, IsRunning, hs]
  · intro hs
    simp [Resume, IsPaused, hs]

/-- C5 on a concrete run: from the fresh context, with a subclass that allocates a stack,
the calls Run, Pause, Pause, Resume, Resume, Stop, Pause, Resume give the statuses listed. -/
theorem lifecycle_follows_table_witness :
    ([LifecycleCall.Run, LifecycleCall.Pause, LifecycleCall.Pause, LifecycleCall.Resume,
      LifecycleCall.Resume, LifecycleCall.Stop, LifecycleCall.Pause, LifecycleCall.Resume].scanl
        (fun x c => applyCall false stackVirtuals c x) freshWorld).map (fun x => x.cpu.m_status)
      = [Status.Stopped, Status.Running, Status.Paused, Status.Paused, Status.Running,
         Status.Running, Status.Stopped, Status.Stopped, Status.Stopped] :=
  (lifecycle_follows_table false stackVirtuals stackVirtuals_keeps_status _ freshWorld).1.trans
    (by decide)

/-- C6 (as stated) fails: after `Reset` and a debugger relocation `SetPc(4)` the status is
`Stopped`, and `Stop()` returns at once, leaving `PC = 4`. -/
theorem Stop_on_stopped_keeps_pc :
    (SetPc 4 (Reset noVirtuals freshWorld)).cpu.m_status = Status.Stopped ∧
    (Stop false noVirtuals (SetPc 4 (Reset noVirtuals freshWorld))).cpu.PC = 4 ∧
    (Stop false noVirtuals (SetPc 4 (Reset noVirtuals freshWorld))).cpu.PC ≠ 0 := by
  decide

/-- C6 (amended): on a context whose status is not `Stopped`, with reset and stop hooks that
do not write these members, `Stop()` leaves `PC = 0`, `cycle = 0` and the three stack
members zero; on a `Stopped` context it returns at once and they keep their values. -/
theorem Stop_clears_unless_stopped (QT_UI : Bool) (V : VirtualId → CPUThread → CPUThread)
    (w : World) :
    (w.cpu.m_status ≠ Status.Stopped →
      Keeps pcCycleStack (V VirtualId.DoReset) → Keeps pcCycleStack (V VirtualId.DoStop) →
      (Stop QT_UI V w).cpu.PC = 0 ∧ (Stop QT_UI V w).cpu.cycle = 0 ∧
      (Stop QT_UI V w).cpu.m_stack_addr = 0 ∧ (Stop QT_UI V w).cpu.m_stack_size = 0 ∧
      (Stop QT_UI V w).cpu.m_stack_point = 0) ∧
    (w.cpu.m_status = Status.Stopped →
      pcCycleStack (Stop QT_UI V w).cpu = pcCycleStack w.cpu) := by
  constructor
  · intro hs hR hS
    have hR2 : ∀ c, (V VirtualId.DoReset c).PC = c.PC ∧ (V VirtualId.DoReset c).cycle = c.cycle ∧
        (V VirtualId.DoReset c).m_stack_addr = c.m_stack_addr ∧
        (V VirtualId.DoReset c).m_stack_size = c.m_stack_size ∧
        (V VirtualId.DoReset c).m_stack_point = c.m_stack_point := by
      intro c
      simpa [pcCycleStack] using hR c
    have hS2 : ∀ c, (V VirtualId.DoStop c).PC = c.PC ∧ (V VirtualId.DoStop c).cycle = c.cycle ∧
        (V VirtualId.DoStop c).m_stack_addr = c.m_stack_addr ∧
        (V VirtualId.DoStop c).m_stack_size = c.m_stack_size ∧
        (V VirtualId.DoStop c).m_stack_point = c.m_stack_point := by
      intro c
      simpa [pcCycleStack] using hS c
    cases QT_UI <;> by_cases ha : w.cpu.m_stack_addr = 0 <;>
      simp [Stop, IsStopped, hs, Reset, CloseStack, SetPc, SendDbgCommand, callVirtual, emit,
        hR2, hS2, ha]
  · intro hs
    simp [Stop, IsStopped, hs]

/-- C6 (amended) at the busy running context, whose stack is at `0x10000`. -/
theorem Stop_clears_unless_stopped_witness :
    busyWorld.cpu.m_status ≠ Status.Stopped ∧ busyWorld.cpu.PC = 0x1000 ∧
    (Stop false stackVirtuals busyWorld).cpu.PC = 0 ∧
    (Stop false stackVirtuals busyWorld).cpu.m_stack_addr = 0 := by
  have h := (Stop_clears_unless_stopped false stackVirtuals busyWorld).1 (by decide)
    (fun c => rfl) (fun c => rfl)
  exact ⟨by decide, rfl, h.1, h.2.2.1⟩

/-- C7: `Stop()` on a `Stopped` context changes no member and makes no call. On a `Running`
or `Paused` context it asks the worker thread to stop, frees the old stack exactly when its
address is non-zero, and, with reset and stop hooks that do not write these members, leaves
the status `Stopped`, `PC`, `cycle` and the error flags zero, no branch pending, the gate
unblocked with target id `-1`, and the stack members zero. -/
theorem Stop_effect (QT_UI : Bool) (V : VirtualId → CPUThread → CPUThread) (w : World) :
    (w.cpu.m_status = Status.Stopped → Stop QT_UI V w = w) ∧
    (w.cpu.m_status ≠ Status.Stopped →
      (Stop QT_UI V w).trace =
        w.trace ++ dbgEvents QT_UI DbgCommand.DID_STOP_THREAD ++ [Event.ThreadBaseStop] ++
          freeEvents w.cpu.m_stack_addr ++
          [Event.Virtual VirtualId.DoReset, Event.Virtual VirtualId.DoStop,
            Event.EmuCheckStatus] ++
          dbgEvents QT_UI DbgCommand.DID_STOPED_THREAD ∧
      ((Stop QT_UI V w).trace.drop w.trace.length).count Event.ThreadBaseStop = 1 ∧
      (∀ a : Nat, Event.MemoryFree a ∈ (Stop QT_UI V w).trace.drop w.trace.length ↔
        (a = w.cpu.m_stack_addr ∧ w.cpu.m_stack_addr ≠ 0)) ∧
      (Keeps resetFields (V VirtualId.DoReset) → Keeps resetFields (V VirtualId.DoStop) →
        (Stop QT_UI V w).cpu.m_status = Status.Stopped ∧
        (Stop QT_UI V w).cpu.PC = 0 ∧ (Stop QT_UI V w).cpu.cycle = 0 ∧
        (Stop QT_UI V w).cpu.m_is_branch = false ∧ (Stop QT_UI V w).cpu.m_error = 0 ∧
        (Stop QT_UI V w).cpu.m_sync_wait = false ∧
        (Stop QT_UI V w).cpu.m_wait_thread_id = -1 ∧
        (Stop QT_UI V w).cpu.m_stack_addr = 0 ∧ (Stop QT_UI V w).cpu.m_stack_size = 0 ∧
        (Stop QT_UI V w).cpu.m_stack_point = 0)) := by
  constructor
  · intro hs
    simp [Stop, IsStopped, hs]
  · intro hs
    have htr : (Stop QT_UI V w).trace =
        w.trace ++ (dbgEvents QT_UI DbgCommand.DID_STOP_THREAD ++ [Event.ThreadBaseStop] ++
          freeEvents w.cpu.m_stack_addr ++
          [Event.Virtual VirtualId.DoReset, Event.Virtual VirtualId.DoStop,
            Event.EmuCheckStatus] ++
          dbgEvents QT_UI DbgCommand.DID_STOPED_THREAD) := by
      cases QT_UI <;> by_cases ha : w.cpu.m_stack_addr = 0 <;>
        simp [Stop, IsStopped, hs, Reset, CloseStack, SetPc, SendDbgCommand, callVirtual, emit,
          dbgEvents, freeEvents, ha]
    refine ⟨by simpa [List.append_assoc] using htr, ?_, ?_, ?_⟩
    · rw [htr, List.drop_left]
      cases QT_UI <;> by_cases ha : w.cpu.m_stack_addr = 0 <;>
        simp [dbgEvents, freeEvents, ha, List.count_cons]
    · intro a
      rw [htr, List.drop_left]
      cases QT_UI <;> by_cases ha : w.cpu.m_stack_addr = 0 <;>
        simp [dbgEvents, freeEvents, ha]
    · intro hR hS
      have hR2 : ∀ c, resetFields (V VirtualId.DoReset c) = resetFields c := hR
      have hS2 : ∀ c, resetFields (V VirtualId.DoStop c) = resetFields c := hS
      simp only [resetFields, Prod.mk.injEq] at hR2 hS2
      cases QT_UI <;> by_cases ha : w.cpu.m_stack_addr = 0 <;>
        simp [Stop, IsStopped, hs, Reset, CloseStack, SetPc, SendDbgCommand, callVirtual, emit,
          hR2, hS2, ha]

/-- C7 at the busy running context: the worker is asked to stop, the stack at `0x10000` is
freed, and the context is reset. -/
theorem Stop_effect_witness :
    busyWorld.cpu.m_status ≠ Status.Stopped ∧
    (Stop false stackVirtuals busyWorld).trace =
      [Event.SendDbgCommand DbgCommand.DID_STOP_THREAD, Event.ThreadBaseStop,
        Event.MemoryFree 0x10000, Event.Virtual VirtualId.DoReset,
        Event.Virtual VirtualId.DoStop, Event.EmuCheckStatus,
        Event.SendDbgCommand DbgCommand.DID_STOPED_THREAD] ∧
    (Stop false stackVirtuals busyWorld).cpu.m_status = Status.Stopped ∧
    (Stop false stackVirtuals busyWorld).cpu.m_error = 0 := by
  have h := (Stop_effect false stackVirtuals busyWorld).2 (by decide)
  have h2 := h.2.2.2 (fun c => rfl) (fun c => rfl)
  exact ⟨by decide, h.1.trans (by decide), h2.1, h2.2.2.2.2.1⟩

/-- C9: `Run()` on a `Paused` context is `Resume()`: the context is the resume hook applied
to the context with status `Running`, with no `SetPc(entry)` and no `InitStack` call. On a
`Running` context it is `Stop()` followed by `Run()` on the resulting `Stopped` context. On
a `Stopped` context it sets the status to `Running` and `PC` to the entry address set by
`SetEntry`, then calls `InitStack`, `InitRegs` and `DoRun` in that order. -/
theorem Run_by_status (QT_UI : Bool) (V : VirtualId → CPUThread → CPUThread) (w : World) :
    (w.cpu.m_status = Status.Paused →
      Run QT_UI V w = Resume QT_UI V w ∧
      (Run QT_UI V w).cpu = V VirtualId.DoResume { w.cpu with m_status := Status.Running } ∧
      (Run QT_UI V w).trace =
        w.trace ++ dbgEvents QT_UI DbgCommand.DID_RESUME_THREAD ++
          [Event.Virtual VirtualId.DoResume, Event.EmuCheckStatus, Event.ThreadBaseStart] ++
          dbgEvents QT_UI DbgCommand.DID_RESUMED_THREAD ∧
      (Keeps pcCycleStack (V VirtualId.DoResume) →
        pcCycleStack (Run QT_UI V w).cpu = pcCycleStack w.cpu)) ∧
    (w.cpu.m_status = Status.Running → (Stop QT_UI V w).cpu.m_status = Status.Stopped →
      Run QT_UI V w = Run QT_UI V (Stop QT_UI V w)) ∧
    (w.cpu.m_status = Status.Stopped → ∀ e : Nat,
      (Run QT_UI V (SetEntry e w)).cpu =
        V VirtualId.DoRun (V VirtualId.InitRegs (V VirtualId.InitStack
          { w.cpu with entry := e, m_status := Status.Running, PC := e })) ∧
      (Run QT_UI V (SetEntry e w)).trace =
        w.trace ++ dbgEvents QT_UI DbgCommand.DID_START_THREAD ++
          [Event.Virtual VirtualId.InitStack, Event.Virtual VirtualId.InitRegs,
            Event.Virtual VirtualId.DoRun, Event.EmuCheckStatus] ++
          dbgEvents QT_UI DbgCommand.DID_STARTED_THREAD) := by
  refine ⟨?_, ?_, ?_⟩
  · intro hs
    refine ⟨?_, ?_, ?_, ?_⟩
    · simp [Run, IsRunning, IsPaused, hs]
    · cases QT_UI <;>
        simp [Run, Resume, IsRunning, IsPaused, hs, SendDbgCommand, callVirtual, emit]
    · cases QT_UI <;>
        simp [Run, Resume, IsRunning, IsPaused, hs, SendDbgCommand, callVirtual, emit,
          dbgEvents]
    · intro hk
      have h := hk { w.cpu with m_status := Status.Running }
      cases QT_UI <;>
        simpa [Run, Resume, IsRunning, IsPaused, hs, SendDbgCommand, callVirtual, emit,
          pcCycleStack] using h
  · intro hs hstop
    have h1 : IsRunning w = true := by simp [IsRunning, hs]
    have h2 : IsRunning (Stop QT_UI V w) = false := by simp [IsRunning, hstop]
    simp only [Run, h1, h2, if_true]
    simp
  · intro hs e
    cases QT_UI <;>
      simp [Run, SetEntry, IsRunning, IsPaused, hs, SendDbgCommand, callVirtual, emit, SetPc,
        dbgEvents]

/-- C9 at concrete contexts: a paused copy of the busy context at `PC = 0x1234` keeps that
`PC` although its entry is `0x1000`; the fresh context with entry `0x1000` is started at
`PC = 0x1000` with a stack at `0x10000`; and `Run` on the busy running context equals `Run`
after `Stop`. -/
theorem Run_by_status_witness :
    (Run false stackVirtuals
      { busyWorld with cpu := { busyThread with m_status := Status.Paused, PC := 0x1234 } }).cpu.PC
        = 0x1234 ∧
    (Run false stackVirtuals (SetEntry 0x1000 freshWorld)).cpu.PC = 0x1000 ∧
    (Run false stackVirtuals (SetEntry 0x1000 freshWorld)).cpu.m_stack_addr = 0x10000 ∧
    Run false stackVirtuals busyWorld
      = Run false stackVirtuals (Stop false stackVirtuals busyWorld) := by
  have h1 := ((Run_by_status false stackVirtuals
    { busyWorld with cpu := { busyThread with m_status := Status.Paused, PC := 0x1234 } }).1
      rfl).2.1
  have h2 := ((Run_by_status false stackVirtuals freshWorld).2.2 rfl 0x1000).1
  have h3 := (Run_by_status false stackVirtuals busyWorld).2.1 rfl (by decide)
  refine ⟨?_, ?_, ?_, h3⟩
  · rw [h1]
    rfl
  · rw [h2]
    rfl
  · rw [h2]
    rfl

/-- C10: on a `Running` context, with pause and resume hooks that do not write these
members, `Pause()` gives status `Paused` and a following `Resume()` gives status `Running`
again, with `PC`, `nPC`, the pending-branch flag, `cycle`, the error flags, the stack
members, the sync gate and the single-step flag as they were before `Pause()`. -/
theorem Pause_Resume_restores (QT_UI : Bool) (V : VirtualId → CPUThread → CPUThread)
    (w : World) (hs : w.cpu.m_status = Status.Running)
    (hP : Keeps pausedFields (V VirtualId.DoPause))
    (hR : Keeps pausedFields (V VirtualId.DoResume)) :
    (Pause QT_UI V w).cpu.m_status = Status.Paused ∧
    (Resume QT_UI V (Pause QT_UI V w)).cpu.m_status = Status.Running ∧
    pausedFields (Resume QT_UI V (Pause QT_UI V w)).cpu = pausedFields w.cpu := by
  have hP2 : ∀ c, pausedFields (V VirtualId.DoPause c) = pausedFields c := hP
  have hR2 : ∀ c, pausedFields (V VirtualId.DoResume c) = pausedFields c := hR
  simp only [pausedFields, Prod.mk.injEq] at hP2 hR2
  cases QT_UI <;>
    simp [Pause, Resume, IsRunning, IsPaused, hs, SendDbgCommand, callVirtual, emit,
      pausedFields, hP2, hR2]

/-- C10 at the busy running context, with a subclass whose hooks write other members. -/
theorem Pause_Resume_restores_witness :
    busyWorld.cpu.m_status = Status.Running ∧
    (Pause false stackVirtuals busyWorld).cpu.m_status = Status.Paused ∧
    pausedFields (Resume false stackVirtuals (Pause false stackVirtuals busyWorld)).cpu
      = (Status.Running, 0x1000, 0x2000, true, 9, 5, 0x10000, 0x1000, 0x10ff0, true, 3, false) := by
  have h := Pause_Resume_restores false stackVirtuals busyWorld rfl (fun c => rfl) (fun c => rfl)
  exact ⟨rfl, h.1, h.2.2.trans rfl⟩

/-! ## The stopped-context invariant -/

/-- The sample subclass does not write `PC`, `cycle` or the stack address in `DoReset` and
`DoStop`. -/
theorem stackVirtuals_keeps_invFields :
    Keeps invFields (stackVirtuals VirtualId.DoReset) ∧
    Keeps invFields (stackVirtuals VirtualId.DoStop) :=
  ⟨fun _ => rfl, fun _ => rfl⟩

/-- After `Reset` the stopped-context invariant holds, when the reset hook does not write
`PC`, `cycle` or the stack address. -/
theorem Reset_establishes_invariant (V : VirtualId → CPUThread → CPUThread)
    (hR : Keeps invFields (V VirtualId.DoReset)) (w : World) :
    StoppedInvariant (Reset V w).cpu := by
  have hR2 : ∀ c, invFields (V VirtualId.DoReset c) = invFields c := hR
  simp only [invFields, Prod.mk.injEq] at hR2
  intro _
  by_cases ha : w.cpu.m_stack_addr = 0 <;>
    simp [Reset, CloseStack, SetPc, callVirtual, emit, hR2, ha]

/-- Each operation of `Op` keeps the stopped-context invariant, when no virtual member
writes `m_status` and the reset and stop hooks do not write `PC`, `cycle` or the stack
address. -/
theorem applyOp_keeps_invariant (QT_UI : Bool) (V : VirtualId → CPUThread → CPUThread)
    (hV : ∀ v, Keeps statusField (V v))
    (hR : Keeps invFields (V VirtualId.DoReset)) (hS : Keeps invFields (V VirtualId.DoStop))
    (env : Env) (op : Op) (w : World) (hw : StoppedInvariant w.cpu) :
    StoppedInvariant (applyOp QT_UI V env op w).cpu := by
  have hk : ∀ v x, (V v x).m_status = x.m_status := fun v x => hV v x
  have hR2 : ∀ c, invFields (V VirtualId.DoReset c) = invFields c := hR
  have hS2 : ∀ c, invFields (V VirtualId.DoStop c) = invFields c := hS
  simp only [invFields, Prod.mk.injEq] at hR2 hS2
  cases op with
  | Run =>
    intro hstop
    have h := applyCall_status QT_UI V hV LifecycleCall.Run w
    simp only [applyCall, transitionTable] at h
    simp only [applyOp] at hstop
    rw [h] at hstop
    cases hstop
  | Pause =>
    intro hstop
    have h := applyCall_status QT_UI V hV LifecycleCall.Pause w
    simp only [applyCall] at h
    simp only [applyOp] at hstop ⊢
    cases hs : w.cpu.m_status
    · have hsame : Pause QT_UI V w = w := by simp [Pause, IsRunning, hs]
      rw [hsame]
      exact hw hs
    · rw [h, hs] at hstop
      cases hstop
    · rw [h, hs] at hstop
      cases hstop
  | Resume =>
    intro hstop
    have h := applyCall_status QT_UI V hV LifecycleCall.Resume w
    simp only [applyCall] at h
    simp only [applyOp] at hstop ⊢
    cases hs : w.cpu.m_status
    · have hsame : Resume QT_UI V w = w := by simp [Resume, IsPaused, hs]
      rw [hsame]
      exact hw hs
    · rw [h, hs] at hstop
      cases hstop
    · rw [h, hs] at hstop
      cases hstop
  | Stop =>
    intro _
    simp only [applyOp]
    by_cases hs : w.cpu.m_status = Status.Stopped
    · have hsame : Stop QT_UI V w = w := by simp [Stop, IsStopped, hs]
      rw [hsame]
      exact hw hs
    · cases QT_UI <;> by_cases ha : w.cpu.m_stack_addr = 0 <;>
        simp [Stop, IsStopped, hs, Reset, CloseStack, SetPc, SendDbgCommand, callVirtual, emit,
          hR2, hS2, ha]
  | Close =>
    intro hstop
    cases hal : env.IsAlive <;> simp [applyOp, Close, emit, hal] at hstop ⊢ <;> exact hw hstop
  | SetBranch pc record_branch =>
    intro hstop
    cases record_branch <;> cases hg : env.IsGoodAddr (u64 (w.cpu.m_offset + pc)) <;>
      simp [applyOp, SetBranch, emit, hg] at hstop ⊢ <;> exact hw hstop
  | SetError error =>
    intro hstop
    by_cases he : error = 0 <;> simp [applyOp, SetError, he] at hstop ⊢ <;> exact hw hstop
  | Wait wait =>
    intro hstop
    simp [applyOp, Wait] at hstop ⊢
    exact hw hstop
  | WaitThread thr =>
    intro hstop
    simp [applyOp, WaitThread] at hstop ⊢
    exact hw hstop
  | SetEntry pc =>
    intro hstop
    simp [applyOp, SetEntry] at hstop ⊢
    exact hw hstop
  | SetId id =>
    intro hstop
    simp [applyOp, SetId] at hstop ⊢
    exact hw hstop

/-- C8 (as stated) fails: the invariant holds after `Reset`, and both `SetPc(4)` and
`NextPc(4)` on that `Stopped` context leave the status `Stopped` with `PC = 4`. -/
theorem StoppedInvariant_broken_by_SetPc :
    StoppedInvariant (Reset noVirtuals freshWorld).cpu ∧
    (SetPc 4 (Reset noVirtuals freshWorld)).cpu.m_status = Status.Stopped ∧
    (SetPc 4 (Reset noVirtuals freshWorld)).cpu.PC = 4 ∧
    ¬ StoppedInvariant (SetPc 4 (Reset noVirtuals freshWorld)).cpu ∧
    ¬ StoppedInvariant (NextPc 4 (Reset noVirtuals freshWorld)).cpu := by
  decide

/-- C8 (amended): when no virtual member writes `m_status` and the reset and stop hooks do
not write `PC`, `cycle` or the stack address, the invariant holds after `Reset`, is kept by
each of `Run`, `Pause`, `Resume`, `Stop`, `Close`, `SetBranch`, `SetError`, `Wait` (both
overloads), `SetEntry` and `SetId`, and so holds in every state these operations reach from
a reset context. -/
theorem StoppedInvariant_reachable (QT_UI : Bool) (V : VirtualId → CPUThread → CPUThread)
    (hV : ∀ v, Keeps statusField (V v))
    (hR : Keeps invFields (V VirtualId.DoReset)) (hS : Keeps invFields (V VirtualId.DoStop))
    (w0 : World) (ops : List (Env × Op)) :
    StoppedInvariant (Reset V w0).cpu ∧
    (∀ (env : Env) (op : Op) (w : World), StoppedInvariant w.cpu →
      StoppedInvariant (applyOp QT_UI V env op w).cpu) ∧
    StoppedInvariant (runOps QT_UI V ops (Reset V w0)).cpu := by
  refine ⟨Reset_establishes_invariant V hR w0,
    fun env op w hw => applyOp_keeps_invariant QT_UI V hV hR hS env op w hw, ?_⟩
  have hgen : ∀ (l : List (Env × Op)) (w : World), StoppedInvariant w.cpu →
      StoppedInvariant (runOps QT_UI V l w).cpu := by
    intro l
    induction l with
    | nil =>
      intro w hw
      exact hw
    | cons x rest ih =>
      intro w hw
      obtain ⟨env, op⟩ := x
      exact ih _ (applyOp_keeps_invariant QT_UI V hV hR hS env op w hw)
  exact hgen ops _ (Reset_establishes_invariant V hR w0)

/-- C8 (amended) on a concrete run from the reset busy context: set the entry, run, branch,
pause, close, stop, set an error, wait. The final context is `Stopped` and satisfies the
invariant. -/
theorem StoppedInvariant_reachable_witness :
    StoppedInvariant (runOps false stackVirtuals
      [(sampleEnv, Op.SetEntry 0x1000), (sampleEnv, Op.Run), (sampleEnv, Op.SetBranch 0x2000 true),
        (sampleEnv, Op.Pause), (sampleEnv, Op.Close), (sampleEnv, Op.Stop),
        (sampleEnv, Op.SetError 3), (sampleEnv, Op.Wait true)]
      (Reset stackVirtuals busyWorld)).cpu ∧
    (runOps false stackVirtuals
      [(sampleEnv, Op.SetEntry 0x1000), (sampleEnv, Op.Run), (sampleEnv, Op.SetBranch 0x2000 true),
        (sampleEnv, Op.Pause), (sampleEnv, Op.Close), (sampleEnv, Op.Stop),
        (sampleEnv, Op.SetError 3), (sampleEnv, Op.Wait true)]
      (Reset stackVirtuals busyWorld)).cpu.m_status = Status.Stopped :=
  ⟨(StoppedInvariant_reachable false stackVirtuals stackVirtuals_keeps_status
      stackVirtuals_keeps_invFields.1 stackVirtuals_keeps_invFields.2 busyWorld _).2.2, by decide⟩

/-! ## Sync gate -/

/-- C13 (as stated) fails: after `Wait(thr)` on a context with id `5` recorded the target
id `5`, `Wait(false)` clears the blocked flag and leaves the target id `5`, not `-1`. -/
theorem Wait_keeps_target_id :
    (WaitThread { freshThread with m_id := 5 } freshWorld).cpu.m_wait_thread_id = 5 ∧
    (Wait false (WaitThread { freshThread with m_id := 5 } freshWorld)).cpu.m_sync_wait
      = false ∧
    (Wait false (WaitThread { freshThread with m_id := 5 } freshWorld)).cpu.m_wait_thread_id
      = 5 ∧
    (Wait false (WaitThread { freshThread with m_id := 5 } freshWorld)).cpu.m_wait_thread_id
      ≠ -1 := by
  decide

/-- C13 (amended): `Wait(b)` sets the blocked flag to `b` and writes nothing else: the
target id keeps the value recorded before, and no call is made. The target id is `-1`
after the constructor and after `Reset` with a hook that does not write it. -/
theorem Wait_sets_flag_only (w : World) (b : Bool) :
    (Wait b w).cpu.m_sync_wait = b ∧
    (Wait b w).cpu.m_wait_thread_id = w.cpu.m_wait_thread_id ∧
    Wait b w = { w with cpu := { w.cpu with m_sync_wait := b } } ∧
    (construct w.cpu).m_wait_thread_id = -1 ∧
    (Reset noVirtuals w).cpu.m_wait_thread_id = -1 := by
  refine ⟨rfl, rfl, rfl, rfl, ?_⟩
  by_cases ha : w.cpu.m_stack_addr = 0 <;>
    simp [Reset, CloseStack, SetPc, callVirtual, emit, noVirtuals, ha]

/-! ## Close -/

/-- C15: `Close()` on an alive context sets `m_free_data`, asks the worker thread to stop
and leaves the decoder; on a context that is not alive it deletes the decoder and nulls
`m_dec`, leaves `m_free_data` and makes no stop request; a second `Close()` on that inert
context changes no member, the only statement it traces being `delete` of the null
pointer. -/
theorem Close_effect (env : Env) (w : World) :
    (env.IsAlive = true →
      (Close env w).cpu = { w.cpu with m_free_data := true } ∧
      (Close env w).trace = w.trace ++ [Event.ThreadBaseStop] ∧
      (Close env w).cpu.m_dec = w.cpu.m_dec) ∧
    (env.IsAlive = false →
      (Close env w).cpu = { w.cpu with m_dec := none } ∧
      (Close env w).trace = w.trace ++ [Event.DeleteDec w.cpu.m_dec] ∧
      (Close env w).cpu.m_free_data = w.cpu.m_free_data ∧
      (Close env (Close env w)).cpu = (Close env w).cpu ∧
      (Close env (Close env w)).trace = (Close env w).trace ++ [Event.DeleteDec none]) := by
  constructor
  · intro h
    simp [Close, h, emit]
  · intro h
    simp [Close, h, emit]

/-- C15 at the busy context, alive and not alive. -/
theorem Close_effect_witness :
    (Close { sampleEnv with IsAlive := true } busyWorld).cpu.m_free_data = true ∧
    (Close { sampleEnv with IsAlive := true } busyWorld).cpu.m_dec = some 1 ∧
    (Close { sampleEnv with IsAlive := true } busyWorld).trace = [Event.ThreadBaseStop] ∧
    (Close sampleEnv busyWorld).cpu.m_dec = none ∧
    (Close sampleEnv busyWorld).trace = [Event.DeleteDec (some 1)] := by
  have h1 := (Close_effect { sampleEnv with IsAlive := true } busyWorld).1 rfl
  have h2 := (Close_effect sampleEnv busyWorld).2 rfl
  refine ⟨?_, h1.2.2, h1.2.1, ?_, h2.2.1⟩
  · rw [h1.1]
  · rw [h2.1]

/-! ## Error flags -/

/-- A bitwise or with a non-zero left operand is non-zero. -/
theorem lor_ne_zero_of_left {x y : Nat} (hx : x ≠ 0) : x ||| y ≠ 0 := by
  intro h
  apply hx
  apply Nat.eq_of_testBit_eq
  intro i
  have hi := congrArg (fun n => n.testBit i) h
  simp only [Nat.testBit_or, Nat.zero_testBit, Bool.or_eq_false_iff] at hi
  simp [hi.1]

/-- C19: after `SetError(0)` the description of the flags is empty; after `SetError(0)`,
`SetError(x)`, `SetError(y)` with `x` and `y` non-zero the flags are `x | y` and their
description is that of `x | y`, the single entry "Unknown error", as it is for every
non-zero flag set. -/
theorem ErrorToString_after_SetError (w : World) :
    ErrorToString (SetError 0 w).cpu.m_error = [] ∧
    (∀ x y : Nat, x ≠ 0 → y ≠ 0 →
      (SetError y (SetError x (SetError 0 w))).cpu.m_error = x ||| y ∧
      ErrorToString (SetError y (SetError x (SetError 0 w))).cpu.m_error
        = ErrorToString (x ||| y) ∧
      ErrorToString (x ||| y) = ["Unknown error"]) ∧
    (∀ f : Nat, f ≠ 0 → ErrorToString f = ["Unknown error"]) := by
  refine ⟨by simp [SetError, ErrorToString], ?_, ?_⟩
  · intro x y hx hy
    have hxy : x ||| y ≠ 0 := lor_ne_zero_of_left hx
    simp [SetError, ErrorToString, hx, hy, hxy]
  · intro f hf
    simp [ErrorToString, hf]

/-- C19 at the busy context (flags `5` before), with `x = 2` and `y = 4`. -/
theorem ErrorToString_after_SetError_witness :
    (SetError 4 (SetError 2 (SetError 0 busyWorld))).cpu.m_error = 6 ∧
    ErrorToString (SetError 4 (SetError 2 (SetError 0 busyWorld))).cpu.m_error
      = ["Unknown error"] := by
  have h := (ErrorToString_after_SetError busyWorld).2.1 2 4 (by decide) (by decide)
  exact ⟨h.1.trans (by decide), h.2.1.trans h.2.2⟩

/-! ## Dispatch loop -/

/-- The breakpoint scan makes one pause request when the address occurs in the list and
none otherwise. -/
theorem breakPointCheck_eq (bp : List Nat) (addr : Nat) (w : World) :
    breakPointCheck bp addr w = if addr ∈ bp then emit Event.EmuPause w else w := by
  induction bp with
  | nil => simp [breakPointCheck]
  | cons b rest ih =>
    by_cases h : b = addr
    · simp [breakPointCheck, h]
    · have h2 : ¬ addr = b := fun e => h e.symm
      simp [breakPointCheck, h, h2, ih]

/-- A pass whose status is `Running` and whose decoder call returns the size `n` calls
`Step()`, the decoder and `NextPc` once each, scans the breakpoints for the new `PC` and
returns to the head of the loop. -/
theorem TaskIteration_running (V : VirtualId → CPUThread → CPUThread)
    (D : Nat → CPUThread → DecodeResult) (env : Env) (bp : List Nat) (w : World) (n : Nat)
    (c : CPUThread) (hst : ThreadStatus env w = CPUThreadStatus.CPUThread_Running)
    (hD : D (decodeAddr V w) (V VirtualId.Step w.cpu) = DecodeResult.size n c) :
    TaskIteration V D env bp w =
      IterationResult.next
        (breakPointCheck bp (afterInstruction V w n c).cpu.PC (afterInstruction V w n c)) := by
  unfold decodeAddr at hD
  simp [TaskIteration, hst, callVirtual, emit, hD, afterInstruction, decodeAddr]

/-- A pass whose status is `Step` and whose decoder call returns the size `n` calls
`Step()`, the decoder and `NextPc` once each, clears `m_is_step` and leaves the loop. -/
theorem TaskIteration_step (V : VirtualId → CPUThread → CPUThread)
    (D : Nat → CPUThread → DecodeResult) (env : Env) (bp : List Nat) (w : World) (n : Nat)
    (c : CPUThread) (hst : ThreadStatus env w = CPUThreadStatus.CPUThread_Step)
    (hD : D (decodeAddr V w) (V VirtualId.Step w.cpu) = DecodeResult.size n c) :
    TaskIteration V D env bp w =
      IterationResult.exit TaskExit.stepBreak
        { afterInstruction V w n c with
          cpu := { (afterInstruction V w n c).cpu with m_is_step := false } } := by
  unfold decodeAddr at hD
  simp [TaskIteration, hst, callVirtual, emit, hD, afterInstruction, decodeAddr]

/-- A pass that executes an instruction (status `Running` or `Step`) whose decoder call
raises an exception leaves the loop with the context as the decoder left it: through the
handler of a `wxString`, a `const char*` or an `int`, and without a handler otherwise.
`NextPc` is not called and `m_is_step` is not written. -/
theorem TaskIteration_fault (V : VirtualId → CPUThread → CPUThread)
    (D : Nat → CPUThread → DecodeResult) (env : Env) (bp : List Nat) (w : World)
    (c : CPUThread)
    (hst : ThreadStatus env w = CPUThreadStatus.CPUThread_Running ∨
      ThreadStatus env w = CPUThreadStatus.CPUThread_Step) :
    (D (decodeAddr V w) (V VirtualId.Step w.cpu) = DecodeResult.throwString c →
      TaskIteration V D env bp w = IterationResult.exit TaskExit.caughtString
        { cpu := c, trace := w.trace ++
          [Event.Virtual VirtualId.Step, Event.DecodeMemory (decodeAddr V w)] }) ∧
    (D (decodeAddr V w) (V VirtualId.Step w.cpu) = DecodeResult.throwChars c →
      TaskIteration V D env bp w = IterationResult.exit TaskExit.caughtChars
        { cpu := c, trace := w.trace ++
          [Event.Virtual VirtualId.Step, Event.DecodeMemory (decodeAddr V w)] }) ∧
    (∀ exitcode : Int,
      D (decodeAddr V w) (V VirtualId.Step w.cpu) = DecodeResult.throwInt exitcode c →
      TaskIteration V D env bp w = IterationResult.exit (TaskExit.caughtInt exitcode)
        { cpu := c, trace := w.trace ++
          [Event.Virtual VirtualId.Step, Event.DecodeMemory (decodeAddr V w)] }) ∧
    (D (decodeAddr V w) (V VirtualId.Step w.cpu) = DecodeResult.throwOther c →
      TaskIteration V D env bp w = IterationResult.exit TaskExit.uncaught
        { cpu := c, trace := w.trace ++
          [Event.Virtual VirtualId.Step, Event.DecodeMemory (decodeAddr V w)] }) := by
  refine ⟨?_, ?_, ?_, ?_⟩
  · intro hD
    unfold decodeAddr at hD
    rcases hst with hst | hst <;>
      simp [TaskIteration, hst, callVirtual, emit, hD, decodeAddr]
  · intro hD
    unfold decodeAddr at hD
    rcases hst with hst | hst <;>
      simp [TaskIteration, hst, callVirtual, emit, hD, decodeAddr]
  · intro exitcode hD
    unfold decodeAddr at hD
    rcases hst with hst | hst <;>
      simp [TaskIteration, hst, callVirtual, emit, hD, decodeAddr]
  · intro hD
    unfold decodeAddr at hD
    rcases hst with hst | hst <;>
      simp [TaskIteration, hst, callVirtual, emit, hD, decodeAddr]

/-- C20: each breakpoint scan makes one pause request when its address occurs in the list
(duplicates or not) and none otherwise. The scan before the first status check is for
`m_offset + PC`. After an instruction executed under the status `Running` the scan is for
the new `PC`, and the loop then goes on to the next status check, match or no match. -/
theorem breakpoint_checks (V : VirtualId → CPUThread → CPUThread)
    (D : Nat → CPUThread → DecodeResult) (envs : Nat → Env) (bp : List Nat) (w : World) :
    (∀ addr : Nat,
      breakPointCheck bp addr w = if addr ∈ bp then emit Event.EmuPause w else w) ∧
    Task V D envs 0 w =
      (TaskExit.unfinished,
        if u64 (w.cpu.m_offset + w.cpu.PC) ∈ (envs 0).BreakPoints
        then emit Event.EmuPause w else w) ∧
    (∀ (fuel k n : Nat) (c : CPUThread),
      ThreadStatus (envs k) w = CPUThreadStatus.CPUThread_Running →
      D (decodeAddr V w) (V VirtualId.Step w.cpu) = DecodeResult.size n c →
      TaskLoop V D envs bp (fuel + 1) k w =
        TaskLoop V D envs bp fuel (k + 1)
          (if (afterInstruction V w n c).cpu.PC ∈ bp
           then emit Event.EmuPause (afterInstruction V w n c)
           else afterInstruction V w n c)) := by
  refine ⟨fun addr => breakPointCheck_eq bp addr w, ?_, ?_⟩
  · simp [Task, TaskLoop, breakPointCheck_eq]
  · intro fuel k n c hst hD
    simp only [TaskLoop, TaskIteration_running V D (envs k) bp w n c hst hD,
      breakPointCheck_eq]

/-- C20 on a list with duplicates, at a context with a decoder: from `PC = 0x1008` the
4-byte instruction moves `PC` to `0x100c`, which occurs twice in the list, and the scan
makes one pause request; on entry with `PC = 0x100c` the scan makes one pause request as
well. -/
theorem breakpoint_checks_witness :
    (TaskLoop noVirtuals sampleDecoder (constEnvs sampleEnv) [0x100c, 0x2000, 0x100c] 1 0
      (readyWorld 0x1008)).2.trace
      = [Event.Virtual VirtualId.Step, Event.DecodeMemory 0x1008, Event.EmuPause] ∧
    (Task noVirtuals sampleDecoder
      (constEnvs { sampleEnv with BreakPoints := [0x100c, 0x2000, 0x100c] }) 0
      (readyWorld 0x100c)).2.trace
      = [Event.EmuPause] := by
  constructor
  · rw [(breakpoint_checks noVirtuals sampleDecoder (constEnvs sampleEnv)
      [0x100c, 0x2000, 0x100c]
      (readyWorld 0x1008)).2.2 0 0 4
      (readyWorld 0x1008).cpu rfl rfl]
    rfl
  · rw [(breakpoint_checks noVirtuals sampleDecoder
      (constEnvs { sampleEnv with BreakPoints := [0x100c, 0x2000, 0x100c] })
      [] (readyWorld 0x100c)).2.1]
    rfl

/-- When the status at a status check is `Step` and the decoder call returns, the
loop calls `Step()`, the decoder and `NextPc` once each, clears `m_is_step` and leaves
through the `break`, whatever fuel is left: the calls it traces are those two and no pause
request, even when the new `PC` is a breakpoint. For `Task` entered in that status the
exit is the step `break`, one decoder call is traced and `m_is_step` is clear. -/
theorem TaskLoop_step_returns (V : VirtualId → CPUThread → CPUThread)
    (D : Nat → CPUThread → DecodeResult) (envs : Nat → Env) (bp : List Nat) (fuel k : Nat)
    (w : World) (n : Nat) (c : CPUThread)
    (hD : D (decodeAddr V w) (V VirtualId.Step w.cpu) = DecodeResult.size n c) :
    (ThreadStatus (envs k) w = CPUThreadStatus.CPUThread_Step →
      TaskLoop V D envs bp (fuel + 1) k w =
        (TaskExit.stepBreak,
          { afterInstruction V w n c with
            cpu := { (afterInstruction V w n c).cpu with m_is_step := false } }) ∧
      (TaskLoop V D envs bp (fuel + 1) k w).2.cpu =
        { (NextPc (u8 n) { cpu := c, trace := [] }).cpu with m_is_step := false } ∧
      (TaskLoop V D envs bp (fuel + 1) k w).2.cpu.m_is_step = false ∧
      (TaskLoop V D envs bp (fuel + 1) k w).2.trace =
        w.trace ++ [Event.Virtual VirtualId.Step, Event.DecodeMemory (decodeAddr V w)]) ∧
    (ThreadStatus (envs 0) w = CPUThreadStatus.CPUThread_Step →
      (Task V D envs (fuel + 1) w).1 = TaskExit.stepBreak ∧
      (Task V D envs (fuel + 1) w).2.cpu.m_is_step = false ∧
      decodeCalls ((Task V D envs (fuel + 1) w).2.trace.drop w.trace.length)
        = [Event.DecodeMemory (decodeAddr V w)]) := by
  constructor
  · intro hst
    have h := TaskIteration_step V D (envs k) bp w n c hst hD
    have hl : TaskLoop V D envs bp (fuel + 1) k w =
        (TaskExit.stepBreak,
          { afterInstruction V w n c with
            cpu := { (afterInstruction V w n c).cpu with m_is_step := false } }) := by
      simp only [TaskLoop, h]
    refine ⟨hl, ?_, ?_, ?_⟩
    · rw [hl]
      cases hb : c.m_is_branch <;> simp [afterInstruction, NextPc, SetPc, hb]
    · rw [hl]
    · rw [hl]
      cases hb : c.m_is_branch <;> simp [afterInstruction, NextPc, SetPc, hb]
  · intro hst
    have hcpu : ∀ x : World, (breakPointCheck (envs 0).BreakPoints
        (u64 (w.cpu.m_offset + w.cpu.PC)) x).cpu = x.cpu := by
      intro x
      rw [breakPointCheck_eq]
      split <;> rfl
    have hst0 : ThreadStatus (envs 0)
        (breakPointCheck (envs 0).BreakPoints (u64 (w.cpu.m_offset + w.cpu.PC)) w)
          = CPUThreadStatus.CPUThread_Step := by
      simpa [ThreadStatus, Sync, hcpu] using hst
    have hD0 : D (decodeAddr V
        (breakPointCheck (envs 0).BreakPoints (u64 (w.cpu.m_offset + w.cpu.PC)) w))
        (V VirtualId.Step
          (breakPointCheck (envs 0).BreakPoints (u64 (w.cpu.m_offset + w.cpu.PC)) w).cpu)
          = DecodeResult.size n c := by
      simpa [decodeAddr, hcpu] using hD
    have h := TaskIteration_step V D (envs 0) (envs 0).BreakPoints _ n c hst0 hD0
    have hda : decodeAddr V
        (breakPointCheck (envs 0).BreakPoints (u64 (w.cpu.m_offset + w.cpu.PC)) w)
          = decodeAddr V w := by
      simp [decodeAddr, hcpu]
    simp only [Task, TaskLoop, h]
    rw [breakPointCheck_eq]
    by_cases hm : u64 (w.cpu.m_offset + w.cpu.PC) ∈ (envs 0).BreakPoints <;>
      cases hb : c.m_is_branch <;> cases hf : c.m_free_data <;>
      simp [hm, hb, hf, TaskCleanup, afterInstruction, NextPc, SetPc, emit, decodeCalls,
        decodeAddr, List.filter_cons]

/-- C12 (as stated) fails: the context at `0x3004` is single-stepping and has a decoder,
whose call raises a `const char*` fault. The loop leaves through the handler: `NextPc` is
not called (`PC` stays `0x3004`) and `m_is_step` is still set, also after `Task`. -/
theorem single_step_fault_keeps_flag :
    ThreadStatus sampleEnv (steppingWorld 0x3004) = CPUThreadStatus.CPUThread_Step ∧
    TaskLoop noVirtuals sampleDecoder (constEnvs sampleEnv) [0x1008] 6 0 (steppingWorld 0x3004)
      = (TaskExit.caughtChars,
          { cpu := (steppingWorld 0x3004).cpu,
            trace := [Event.Virtual VirtualId.Step, Event.DecodeMemory 0x3004] }) ∧
    (steppingWorld 0x3004).cpu.m_is_step = true ∧
    (steppingWorld 0x3004).cpu.PC = 0x3004 ∧
    (Task noVirtuals sampleDecoder (constEnvs sampleEnv) 6 (steppingWorld 0x3004)).2.cpu.m_is_step
      = true ∧
    (Task noVirtuals sampleDecoder (constEnvs sampleEnv) 6 (steppingWorld 0x3004)).2.cpu.PC
      = 0x3004 := by
  decide

/-- C12 (amended): when the status at a status check is `Step` and the decoder call
returns, the loop calls `Step()`, the decoder and `NextPc` once each, clears `m_is_step` and
leaves through the `break`, whatever fuel is left: the calls it traces are those two and no
pause request, even when the new `PC` is a breakpoint; for `Task` entered in that status
the exit is the step `break`, one decoder call is traced and `m_is_step` is clear. When
the decoder call raises an exception instead, the loop ends in that pass with the context
as the decoder left it: `NextPc` is not called and `m_is_step` is not cleared. -/
theorem single_step_executes_once (V : VirtualId → CPUThread → CPUThread)
    (D : Nat → CPUThread → DecodeResult) (envs : Nat → Env) (bp : List Nat) (fuel k : Nat)
    (w : World) :
    (∀ (n : Nat) (c : CPUThread),
      D (decodeAddr V w) (V VirtualId.Step w.cpu) = DecodeResult.size n c →
      (ThreadStatus (envs k) w = CPUThreadStatus.CPUThread_Step →
        TaskLoop V D envs bp (fuel + 1) k w =
          (TaskExit.stepBreak,
            { afterInstruction V w n c with
              cpu := { (afterInstruction V w n c).cpu with m_is_step := false } }) ∧
        (TaskLoop V D envs bp (fuel + 1) k w).2.cpu =
          { (NextPc (u8 n) { cpu := c, trace := [] }).cpu with m_is_step := false } ∧
        (TaskLoop V D envs bp (fuel + 1) k w).2.cpu.m_is_step = false ∧
        (TaskLoop V D envs bp (fuel + 1) k w).2.trace =
          w.trace ++ [Event.Virtual VirtualId.Step, Event.DecodeMemory (decodeAddr V w)]) ∧
      (ThreadStatus (envs 0) w = CPUThreadStatus.CPUThread_Step →
        (Task V D envs (fuel + 1) w).1 = TaskExit.stepBreak ∧
        (Task V D envs (fuel + 1) w).2.cpu.m_is_step = false ∧
        decodeCalls ((Task V D envs (fuel + 1) w).2.trace.drop w.trace.length)
          = [Event.DecodeMemory (decodeAddr V w)])) ∧
    (ThreadStatus (envs k) w = CPUThreadStatus.CPUThread_Step → ∀ c : CPUThread,
      (D (decodeAddr V w) (V VirtualId.Step w.cpu) = DecodeResult.throwString c →
        TaskLoop V D envs bp (fuel + 1) k w =
          (TaskExit.caughtString,
            { cpu := c, trace := w.trace ++
              [Event.Virtual VirtualId.Step, Event.DecodeMemory (decodeAddr V w)] })) ∧
      (D (decodeAddr V w) (V VirtualId.Step w.cpu) = DecodeResult.throwChars c →
        TaskLoop V D envs bp (fuel + 1) k w =
          (TaskExit.caughtChars,
            { cpu := c, trace := w.trace ++
              [Event.Virtual VirtualId.Step, Event.DecodeMemory (decodeAddr V w)] })) ∧
      (∀ exitcode : Int,
        D (decodeAddr V w) (V VirtualId.Step w.cpu) = DecodeResult.throwInt exitcode c →
        TaskLoop V D envs bp (fuel + 1) k w =
          (TaskExit.caughtInt exitcode,
            { cpu := c, trace := w.trace ++
              [Event.Virtual VirtualId.Step, Event.DecodeMemory (decodeAddr V w)] })) ∧
      (D (decodeAddr V w) (V VirtualId.Step w.cpu) = DecodeResult.throwOther c →
        TaskLoop V D envs bp (fuel + 1) k w =
          (TaskExit.uncaught,
            { cpu := c, trace := w.trace ++
              [Event.Virtual VirtualId.Step, Event.DecodeMemory (decodeAddr V w)] }))) := by
  constructor
  · intro n c hD
    exact TaskLoop_step_returns V D envs bp fuel k w n c hD
  · intro hst c
    have h := TaskIteration_fault V D (envs k) bp w c (Or.inr hst)
    refine ⟨?_, ?_, ?_, ?_⟩
    · intro hD
      simp only [TaskLoop, h.1 hD]
    · intro hD
      simp only [TaskLoop, h.2.1 hD]
    · intro exitcode hD
      simp only [TaskLoop, h.2.2.1 exitcode hD]
    · intro hD
      simp only [TaskLoop, h.2.2.2 hD]

/-- C12 (amended) at a single-stepping context with a decoder at `0x1008`, with `0x100c` a
breakpoint and fuel for six passes: one instruction is decoded, `PC` moves to `0x100c`, no
pause is requested and the flag is clear. -/
theorem single_step_executes_once_witness :
    TaskLoop noVirtuals sampleDecoder (constEnvs sampleEnv) [0x100c] 6 0 (steppingWorld 0x1008)
      = (TaskExit.stepBreak,
          { cpu := { (steppingWorld 0x1008).cpu with m_is_step := false, PC := 0x100c },
            trace := [Event.Virtual VirtualId.Step, Event.DecodeMemory 0x1008] }) ∧
    (steppingWorld 0x1008).cpu.m_dec = some 1 :=
  ⟨(((single_step_executes_once noVirtuals sampleDecoder (constEnvs sampleEnv) [0x100c] 5 0
    (steppingWorld 0x1008)).1 4 (steppingWorld 0x1008).cpu rfl).1 rfl).1.trans rfl, rfl⟩

/-- The breakpoint scan writes no member of the context. -/
theorem breakPointCheck_cpu (bp : List Nat) (addr : Nat) (w : World) :
    (breakPointCheck bp addr w).cpu = w.cpu := by
  rw [breakPointCheck_eq]
  split <;> rfl

/-- `Run()` on a `Stopped` context leaves `PC` at the entry address, when no virtual member
writes `PC`. -/
theorem Run_stopped_pc (QT_UI : Bool) (V : VirtualId → CPUThread → CPUThread) (w : World)
    (e : Nat) (hs : w.cpu.m_status = Status.Stopped) (hV : ∀ v, Keeps pcField (V v)) :
    (Run QT_UI V (SetEntry e w)).cpu.PC = e := by
  have hk : ∀ v x, (V v x).PC = x.PC := fun v x => hV v x
  cases QT_UI <;>
    simp [Run, SetEntry, IsRunning, IsPaused, hs, SendDbgCommand, callVirtual, emit, SetPc, hk]

/-- C11 (as stated) fails: on a reset context a branch to `0x2000` is set, then `Run()`
starts it from the entry `0x1000`; `Run()` does not clear `m_is_branch`. The pass of the
loop, under the status `Running`, calls the decoder at `0x1000`; the instruction is 4 bytes
long and leaves the context as it found it, so it sets no pending branch; `NextPc` then
commits the old branch, and `PC` is `0x2000`, not `0x1004`. -/
theorem Run_keeps_stale_branch :
    (SetBranch sampleEnv 0x2000 false (Reset stackVirtuals freshWorld)).cpu.m_status
      = Status.Stopped ∧
    staleBranchWorld.cpu.PC = 0x1000 ∧
    staleBranchWorld.cpu.m_is_branch = true ∧
    staleBranchWorld.cpu.m_dec = some 1 ∧
    ThreadStatus sampleEnv staleBranchWorld = CPUThreadStatus.CPUThread_Running ∧
    decodeAddr stackVirtuals staleBranchWorld = 0x1000 ∧
    (sampleDecoder 0x1000 (stackVirtuals VirtualId.Step staleBranchWorld.cpu)).cpu
      = staleBranchWorld.cpu ∧
    (TaskIteration stackVirtuals sampleDecoder sampleEnv [0x1008] staleBranchWorld).world.cpu.PC
      = 0x2000 ∧
    (TaskIteration stackVirtuals sampleDecoder sampleEnv [0x1008] staleBranchWorld).world.cpu.PC
      ≠ (0x1000 + 4) % 2 ^ 64 := by
  decide

/-- C11 (amended): after `Run()` on a `Stopped` context with entry `e`, with virtual
members that do not write `PC`, a pass of the loop under the status `Running` calls the
decoder once, at `m_offset + PC` with `PC = e`, and calls `NextPc` with the 8-bit size `s`
it returned. When no branch is pending once the decoder has returned, `PC` moves by `s`,
to `(e + s) mod 2^64` if the instruction left `PC` alone; when a branch is pending then,
set by the instruction or left from before `Run()`, `PC` is the stored `nPC` and the flag
is cleared. -/
theorem Run_then_one_instruction (QT_UI : Bool) (V : VirtualId → CPUThread → CPUThread)
    (D : Nat → CPUThread → DecodeResult) (env : Env) (bp : List Nat) (w : World)
    (e s : Nat) (c : CPUThread)
    (hs : w.cpu.m_status = Status.Stopped) (hV : ∀ v, Keeps pcField (V v))
    (hst : ThreadStatus env (Run QT_UI V (SetEntry e w)) = CPUThreadStatus.CPUThread_Running)
    (hD : D (decodeAddr V (Run QT_UI V (SetEntry e w)))
        (V VirtualId.Step (Run QT_UI V (SetEntry e w)).cpu) = DecodeResult.size s c)
    (hs8 : s < 256) :
    (Run QT_UI V (SetEntry e w)).cpu.PC = e ∧
    (Run QT_UI V (SetEntry e w)).cpu.m_is_branch
      = (V VirtualId.DoRun (V VirtualId.InitRegs (V VirtualId.InitStack
          { w.cpu with entry := e, m_status := Status.Running, PC := e }))).m_is_branch ∧
    decodeAddr V (Run QT_UI V (SetEntry e w))
      = (e + (V VirtualId.Step (Run QT_UI V (SetEntry e w)).cpu).m_offset) % 2 ^ 64 ∧
    ∃ w2 : World,
      TaskIteration V D env bp (Run QT_UI V (SetEntry e w)) = IterationResult.next w2 ∧
      decodeCalls (w2.trace.drop (Run QT_UI V (SetEntry e w)).trace.length)
        = [Event.DecodeMemory (decodeAddr V (Run QT_UI V (SetEntry e w)))] ∧
      (c.m_is_branch = false → w2.cpu.PC = (c.PC + s) % 2 ^ 64) ∧
      (c.m_is_branch = false → c.PC = e → w2.cpu.PC = (e + s) % 2 ^ 64) ∧
      (c.m_is_branch = true → w2.cpu.PC = c.nPC ∧ w2.cpu.m_is_branch = false) := by
  have hrun := Run_stopped_pc QT_UI V w e hs hV
  have hk : ∀ v x, (V v x).PC = x.PC := fun v x => hV v x
  have h8 : s % 256 = s := Nat.mod_eq_of_lt hs8
  refine ⟨hrun, ?_, ?_, _, TaskIteration_running V D env bp _ s c hst hD, ?_, ?_, ?_, ?_⟩
  · cases QT_UI <;>
      simp [Run, SetEntry, IsRunning, IsPaused, hs, SendDbgCommand, callVirtual, emit, SetPc]
  · simp [decodeAddr, u64, hk, hrun]
  · rw [breakPointCheck_eq]
    cases hb : c.m_is_branch <;>
      split <;> simp [afterInstruction, NextPc, SetPc, hb, emit, decodeCalls, List.filter_cons]
  · intro hbr
    simp [breakPointCheck_cpu, afterInstruction, NextPc, hbr, u64, u8, h8]
  · intro hbr hpc
    simp [breakPointCheck_cpu, afterInstruction, NextPc, hbr, hpc, u64, u8, h8]
  · intro hbr
    simp [breakPointCheck_cpu, afterInstruction, NextPc, SetPc, hbr]

/-- C11 (amended) at the specification's scenario: entry `0x1000`, a 4-byte instruction, no
pending branch: the decoder is called at `0x1000` and `PC` is `0x1004` afterwards. -/
theorem Run_then_one_instruction_witness :
    ∃ w2 : World,
      TaskIteration stackVirtuals sampleDecoder sampleEnv [0x1008]
        (Run false stackVirtuals (SetEntry 0x1000 (Reset stackVirtuals freshWorld)))
          = IterationResult.next w2 ∧
      decodeCalls (w2.trace.drop
        (Run false stackVirtuals (SetEntry 0x1000 (Reset stackVirtuals freshWorld))).trace.length)
        = [Event.DecodeMemory 0x1000] ∧
      w2.cpu.PC = 0x1004 := by
  obtain ⟨w2, h1, h2, _, h4, _⟩ :=
    (Run_then_one_instruction false stackVirtuals sampleDecoder sampleEnv [0x1008]
      (Reset stackVirtuals freshWorld) 0x1000 4
      (Run false stackVirtuals (SetEntry 0x1000 (Reset stackVirtuals freshWorld))).cpu
      rfl (fun v c => by cases v <;> rfl) rfl rfl (by decide)).2.2.2
  exact ⟨w2, h1, h2, h4 rfl rfl⟩

/-- `NextPc` makes no call. -/
theorem NextPc_trace (n : Nat) (w : World) : (NextPc n w).trace = w.trace := by
  unfold NextPc
  split <;> rfl

/-- One pass of the loop extends the trace by calls of the loop body only. -/
theorem TaskIteration_trace (V : VirtualId → CPUThread → CPUThread)
    (D : Nat → CPUThread → DecodeResult) (env : Env) (bp : List Nat) (w : World) :
    ∃ evs : List Event,
      (TaskIteration V D env bp w).world.trace = w.trace ++ evs ∧
      ∀ e ∈ evs, isLoopEvent e = true := by
  by_cases h1 : ThreadStatus env w = CPUThreadStatus.CPUThread_Stopped ∨
      ThreadStatus env w = CPUThreadStatus.CPUThread_Break
  · exact ⟨[], by simp [TaskIteration, h1, IterationResult.world], by simp⟩
  by_cases h2 : ThreadStatus env w = CPUThreadStatus.CPUThread_Sleeping
  · exact ⟨[Event.Sleep], by simp [TaskIteration, h1, h2, IterationResult.world, emit],
      by simp [isLoopEvent]⟩
  cases hD : D (decodeAddr V w) (V VirtualId.Step w.cpu) with
  | throwString c =>
    unfold decodeAddr at hD
    exact ⟨[Event.Virtual VirtualId.Step, Event.DecodeMemory (decodeAddr V w)],
      by simp [TaskIteration, h1, h2, callVirtual, emit, hD, IterationResult.world, decodeAddr],
      by simp [isLoopEvent]⟩
  | throwChars c =>
    unfold decodeAddr at hD
    exact ⟨[Event.Virtual VirtualId.Step, Event.DecodeMemory (decodeAddr V w)],
      by simp [TaskIteration, h1, h2, callVirtual, emit, hD, IterationResult.world, decodeAddr],
      by simp [isLoopEvent]⟩
  | throwInt exitcode c =>
    unfold decodeAddr at hD
    exact ⟨[Event.Virtual VirtualId.Step, Event.DecodeMemory (decodeAddr V w)],
      by simp [TaskIteration, h1, h2, callVirtual, emit, hD, IterationResult.world, decodeAddr],
      by simp [isLoopEvent]⟩
  | throwOther c =>
    unfold decodeAddr at hD
    exact ⟨[Event.Virtual VirtualId.Step, Event.DecodeMemory (decodeAddr V w)],
      by simp [TaskIteration, h1, h2, callVirtual, emit, hD, IterationResult.world, decodeAddr],
      by simp [isLoopEvent]⟩
  | size n c =>
    unfold decodeAddr at hD
    by_cases h3 : ThreadStatus env w = CPUThreadStatus.CPUThread_Step
    · exact ⟨[Event.Virtual VirtualId.Step, Event.DecodeMemory (decodeAddr V w)],
        by simp [TaskIteration, h3, callVirtual, emit, hD, IterationResult.world, decodeAddr,
          NextPc_trace],
        by simp [isLoopEvent]⟩
    · by_cases hm : (NextPc (u8 n)
          { cpu := c,
            trace := w.trace ++
              [Event.Virtual VirtualId.Step, Event.DecodeMemory (decodeAddr V w)] }).cpu.PC ∈ bp
      · unfold decodeAddr at hm
        exact ⟨[Event.Virtual VirtualId.Step, Event.DecodeMemory (decodeAddr V w),
            Event.EmuPause],
          by simp [TaskIteration, h1, h2, h3, callVirtual, emit, hD, IterationResult.world,
            decodeAddr, NextPc_trace, breakPointCheck_eq, hm],
          by simp [isLoopEvent]⟩
      · unfold decodeAddr at hm
        exact ⟨[Event.Virtual VirtualId.Step, Event.DecodeMemory (decodeAddr V w)],
          by simp [TaskIteration, h1, h2, h3, callVirtual, emit, hD, IterationResult.world,
            decodeAddr, NextPc_trace, breakPointCheck_eq, hm],
          by simp [isLoopEvent]⟩

/-- The loop extends the trace by calls of the loop body only. -/
theorem TaskLoop_trace (V : VirtualId → CPUThread → CPUThread)
    (D : Nat → CPUThread → DecodeResult) (envs : Nat → Env) (bp : List Nat) (fuel : Nat) :
    ∀ (k : Nat) (w : World), ∃ evs : List Event,
      (TaskLoop V D envs bp fuel k w).2.trace = w.trace ++ evs ∧
      ∀ e ∈ evs, isLoopEvent e = true := by
  induction fuel with
  | zero =>
    intro k w
    exact ⟨[], by simp [TaskLoop], by simp⟩
  | succ fuel ih =>
    intro k w
    obtain ⟨evs, htr, hev⟩ := TaskIteration_trace V D (envs k) bp w
    simp only [TaskLoop]
    cases hit : TaskIteration V D (envs k) bp w with
    | exit x w1 =>
      rw [hit] at htr
      exact ⟨evs, htr, hev⟩
    | next w1 =>
      rw [hit] at htr
      obtain ⟨evs2, htr2, hev2⟩ := ih (k + 1) w1
      refine ⟨evs ++ evs2, ?_, ?_⟩
      · simp only [htr2]
        simp only [IterationResult.world] at htr
        rw [htr, List.append_assoc]
      · intro x hx
        rcases List.mem_append.mp hx with h | h
        · exact hev x h
        · exact hev2 x h

/-- `Task` is its loop, entered after the breakpoint scan for `m_offset + PC`, followed by
the tail that belongs to the way the loop was left; the loop's calls are calls of the loop
body only. -/
theorem Task_shape (V : VirtualId → CPUThread → CPUThread)
    (D : Nat → CPUThread → DecodeResult) (envs : Nat → Env) (fuel : Nat) (w : World) :
    ∃ (evs : List Event) (w1 : World),
      (∀ e ∈ evs, isLoopEvent e = true) ∧ w1.trace = w.trace ++ evs ∧
      Task V D envs fuel w = ((Task V D envs fuel w).1, taskTail (Task V D envs fuel w).1 w1) := by
  obtain ⟨evs, htr, hev⟩ := TaskLoop_trace V D envs (envs 0).BreakPoints fuel 0
    (breakPointCheck (envs 0).BreakPoints (u64 (w.cpu.m_offset + w.cpu.PC)) w)
  rcases hL : TaskLoop V D envs (envs 0).BreakPoints fuel 0
    (breakPointCheck (envs 0).BreakPoints (u64 (w.cpu.m_offset + w.cpu.PC)) w) with ⟨x, w1⟩
  rw [hL] at htr
  rw [breakPointCheck_eq] at htr
  have hshape : Task V D envs fuel w = (x, taskTail x w1) := by
    cases x <;> simp [Task, hL, taskTail]
  by_cases hm : u64 (w.cpu.m_offset + w.cpu.PC) ∈ (envs 0).BreakPoints
  · refine ⟨Event.EmuPause :: evs, w1, ?_, ?_, ?_⟩
    · intro e he
      rcases List.mem_cons.mp he with h | h
      · rw [h]
        rfl
      · exact hev e h
    · simpa [hm, emit] using htr
    · rw [hshape]
  · refine ⟨evs, w1, hev, ?_, ?_⟩
    · simpa [hm] using htr
    · rw [hshape]

/-- Calls of the loop body release nothing. -/
theorem loopEvents_no_release (evs : List Event) (h : ∀ e ∈ evs, isLoopEvent e = true) :
    evs.filter isRelease = [] := by
  rw [List.filter_eq_nil_iff]
  intro e he
  have hl := h e he
  cases e <;> simp_all [isLoopEvent, isRelease]

/-- Calls of the loop body free no memory. -/
theorem loopEvents_no_free (evs : List Event) (h : ∀ e ∈ evs, isLoopEvent e = true) :
    evs.filter isMemoryFree = [] := by
  rw [List.filter_eq_nil_iff]
  intro e he
  have hl := h e he
  cases e <;> simp_all [isLoopEvent, isMemoryFree]

/-- A pass whose status is `Stopped` or `Break` leaves the loop at once. -/
theorem TaskIteration_status_break (V : VirtualId → CPUThread → CPUThread)
    (D : Nat → CPUThread → DecodeResult) (env : Env) (bp : List Nat) (w : World)
    (hst : ThreadStatus env w = CPUThreadStatus.CPUThread_Stopped ∨
      ThreadStatus env w = CPUThreadStatus.CPUThread_Break) :
    TaskIteration V D env bp w = IterationResult.exit TaskExit.statusBreak w := by
  simp [TaskIteration, hst]

/-- When `Task` leaves its loop by a `break` or a caught textual fault and `m_free_data` is
set, it nulls `m_dec`, and the releases it traces are `delete m_dec` and `free(this)`. -/
theorem Task_releases_on_normal_exit (V : VirtualId → CPUThread → CPUThread)
    (D : Nat → CPUThread → DecodeResult) (envs : Nat → Env) (fuel : Nat) (w : World)
    (hx : (Task V D envs fuel w).1 = TaskExit.statusBreak ∨
        (Task V D envs fuel w).1 = TaskExit.stepBreak ∨
        (Task V D envs fuel w).1 = TaskExit.caughtString ∨
        (Task V D envs fuel w).1 = TaskExit.caughtChars)
    (hfree : (Task V D envs fuel w).2.cpu.m_free_data = true) :
    (Task V D envs fuel w).2.cpu.m_dec = none ∧
    ∃ d : Option Nat,
      ((Task V D envs fuel w).2.trace.drop w.trace.length).filter isRelease
        = [Event.DeleteDec d, Event.FreeThis] := by
  obtain ⟨evs, w1, hev, htr, hshape⟩ := Task_shape V D envs fuel w
  have hrel := loopEvents_no_release evs hev
  rw [hshape] at hfree ⊢
  simp only at hfree ⊢
  cases hf : w1.cpu.m_free_data
  · rcases hx with hx | hx | hx | hx <;> rw [hx] at hfree <;>
      simp [taskTail, TaskCleanup, emit, hf] at hfree
  · rcases hx with hx | hx | hx | hx <;> rw [hx] <;>
      simp [taskTail, TaskCleanup, emit, hf, htr, List.filter_append, hrel, isRelease]

/-- `Task` never calls `Memory.Free`. -/
theorem Task_no_memory_free (V : VirtualId → CPUThread → CPUThread)
    (D : Nat → CPUThread → DecodeResult) (envs : Nat → Env) (fuel : Nat) (w : World) :
    ((Task V D envs fuel w).2.trace.drop w.trace.length).filter isMemoryFree = [] := by
  obtain ⟨evs, w1, hev, htr, hshape⟩ := Task_shape V D envs fuel w
  have hfr := loopEvents_no_free evs hev
  rw [hshape]
  simp only
  cases (Task V D envs fuel w).1 <;> cases hf : w1.cpu.m_free_data <;>
    simp [taskTail, TaskCleanup, emit, hf, htr, List.filter_append, hfr, isMemoryFree]

/-- C17 (as stated) fails: `Task` has handlers for `wxString`, `const char*` and `int` and
no `catch(...)`. The decoder call at `0x300c` raises an exception of another type; it
leaves `Task` for the caller, with no log call, and, although `m_free_data` is set, with
the decoder and the context not released. -/
theorem Task_propagates_other_exception :
    (doomedWorld 0x300c).cpu.m_free_data = true ∧
    (doomedWorld 0x300c).cpu.m_dec = some 1 ∧
    ThreadStatus sampleEnv (doomedWorld 0x300c) = CPUThreadStatus.CPUThread_Running ∧
    Task noVirtuals sampleDecoder (constEnvs sampleEnv) 3 (doomedWorld 0x300c)
      = (TaskExit.uncaught,
          { cpu := (doomedWorld 0x300c).cpu,
            trace := [Event.Virtual VirtualId.Step, Event.DecodeMemory 0x300c] }) := by
  decide

/-- C17 (amended): `Task` catches the faults it has a handler for, textual (`wxString`,
`const char*`) and exit code (`int`); an exception of any other type leaves `Task` for the
caller, and then nothing is logged or released. When `Task` leaves its loop by a status or
step `break` or by a caught textual fault and `m_free_data` is set, it deletes the decoder,
nulls `m_dec` and frees the context. When the decoder raises an exit code `Task` returns
from the handler: it releases nothing, whatever `m_free_data` is, and writes no member
after the loop. The pass in which an exception is raised is the last one. -/
theorem Task_exit_paths (V : VirtualId → CPUThread → CPUThread)
    (D : Nat → CPUThread → DecodeResult) (envs : Nat → Env) (fuel : Nat) (w : World) :
    (((Task V D envs fuel w).1 = TaskExit.statusBreak ∨
        (Task V D envs fuel w).1 = TaskExit.stepBreak ∨
        (Task V D envs fuel w).1 = TaskExit.caughtString ∨
        (Task V D envs fuel w).1 = TaskExit.caughtChars) →
      (Task V D envs fuel w).2.cpu.m_free_data = true →
      (Task V D envs fuel w).2.cpu.m_dec = none ∧
      ∃ d : Option Nat,
        ((Task V D envs fuel w).2.trace.drop w.trace.length).filter isRelease
          = [Event.DeleteDec d, Event.FreeThis]) ∧
    (∀ exitcode : Int, (Task V D envs fuel w).1 = TaskExit.caughtInt exitcode →
      ((Task V D envs fuel w).2.trace.drop w.trace.length).filter isRelease = [] ∧
      (Task V D envs fuel w).2.trace.getLast? = some (Event.ConLogSuccess exitcode) ∧
      (Task V D envs fuel w).2.cpu =
        (TaskLoop V D envs (envs 0).BreakPoints fuel 0
          (breakPointCheck (envs 0).BreakPoints (u64 (w.cpu.m_offset + w.cpu.PC)) w)).2.cpu) ∧
    ((Task V D envs fuel w).1 = TaskExit.uncaught →
      ((Task V D envs fuel w).2.trace.drop w.trace.length).filter isRelease = [] ∧
      (Task V D envs fuel w).2 =
        (TaskLoop V D envs (envs 0).BreakPoints fuel 0
          (breakPointCheck (envs 0).BreakPoints (u64 (w.cpu.m_offset + w.cpu.PC)) w)).2) ∧
    (∀ (bp : List Nat) (k : Nat) (x : World) (c : CPUThread),
      (ThreadStatus (envs k) x = CPUThreadStatus.CPUThread_Running ∨
        ThreadStatus (envs k) x = CPUThreadStatus.CPUThread_Step) →
      (D (decodeAddr V x) (V VirtualId.Step x.cpu) = DecodeResult.throwString c →
        (TaskLoop V D envs bp (fuel + 1) k x).1 = TaskExit.caughtString) ∧
      (D (decodeAddr V x) (V VirtualId.Step x.cpu) = DecodeResult.throwChars c →
        (TaskLoop V D envs bp (fuel + 1) k x).1 = TaskExit.caughtChars) ∧
      (∀ exitcode : Int,
        D (decodeAddr V x) (V VirtualId.Step x.cpu) = DecodeResult.throwInt exitcode c →
        TaskLoop V D envs bp (fuel + 1) k x =
          (TaskExit.caughtInt exitcode,
            { cpu := c, trace := x.trace ++
              [Event.Virtual VirtualId.Step, Event.DecodeMemory (decodeAddr V x)] })) ∧
      (D (decodeAddr V x) (V VirtualId.Step x.cpu) = DecodeResult.throwOther c →
        TaskLoop V D envs bp (fuel + 1) k x =
          (TaskExit.uncaught,
            { cpu := c, trace := x.trace ++
              [Event.Virtual VirtualId.Step, Event.DecodeMemory (decodeAddr V x)] }))) := by
  obtain ⟨evs, w1, hev, htr, hshape⟩ := Task_shape V D envs fuel w
  have hrel := loopEvents_no_release evs hev
  refine ⟨?_, ?_, ?_, ?_⟩
  · intro hx hfree
    exact Task_releases_on_normal_exit V D envs fuel w hx hfree
  · intro exitcode hx
    have hloop : (TaskLoop V D envs (envs 0).BreakPoints fuel 0
        (breakPointCheck (envs 0).BreakPoints (u64 (w.cpu.m_offset + w.cpu.PC)) w)).1
          = TaskExit.caughtInt exitcode := by
      rcases hL : TaskLoop V D envs (envs 0).BreakPoints fuel 0
        (breakPointCheck (envs 0).BreakPoints (u64 (w.cpu.m_offset + w.cpu.PC)) w) with ⟨y, w2⟩
      have hT : (Task V D envs fuel w).1 = y := by
        cases y <;> simp [Task, hL]
      rw [hT] at hx
      exact hx
    have hcpu : (Task V D envs fuel w).2.cpu =
        (TaskLoop V D envs (envs 0).BreakPoints fuel 0
          (breakPointCheck (envs 0).BreakPoints (u64 (w.cpu.m_offset + w.cpu.PC)) w)).2.cpu := by
      rcases hL : TaskLoop V D envs (envs 0).BreakPoints fuel 0
        (breakPointCheck (envs 0).BreakPoints (u64 (w.cpu.m_offset + w.cpu.PC)) w) with ⟨y, w2⟩
      rw [hL] at hloop
      simp only at hloop
      subst hloop
      simp [Task, hL, emit]
    refine ⟨?_, ?_, hcpu⟩
    · rw [hshape]
      simp only
      rw [hx]
      simp [taskTail, emit, htr, List.filter_append, hrel, isRelease]
    · rw [hshape]
      simp only
      rw [hx]
      simp [taskTail, emit]
  · intro hx
    constructor
    · rw [hshape]
      simp only
      rw [hx]
      simp [taskTail, htr, hrel]
    · rcases hL : TaskLoop V D envs (envs 0).BreakPoints fuel 0
        (breakPointCheck (envs 0).BreakPoints (u64 (w.cpu.m_offset + w.cpu.PC)) w) with ⟨y, w2⟩
      have hT : (Task V D envs fuel w).1 = y := by
        cases y <;> simp [Task, hL]
      rw [hT] at hx
      subst hx
      simp [Task, hL]
  · intro bp k x c hst
    have h := TaskIteration_fault V D (envs k) bp x c hst
    refine ⟨?_, ?_, ?_, ?_⟩
    · intro hD
      simp only [TaskLoop, h.1 hD]
    · intro hD
      simp only [TaskLoop, h.2.1 hD]
    · intro exitcode hD
      simp only [TaskLoop, h.2.2.1 exitcode hD]
    · intro hD
      simp only [TaskLoop, h.2.2.2 hD]

/-- C17 (amended) at concrete contexts with `m_free_data` set and a decoder: after the exit
code raised at `0x3000` nothing is released and the last call is the log of the code; the
textual fault raised at `0x3004` and a cancellation both end in the self-free. -/
theorem Task_exit_paths_witness :
    ((Task noVirtuals sampleDecoder (constEnvs sampleEnv) 3 (doomedWorld 0x3000)).2.trace.drop
      (doomedWorld 0x3000).trace.length).filter isRelease = [] ∧
    (Task noVirtuals sampleDecoder (constEnvs sampleEnv) 3 (doomedWorld 0x3000)).2.trace.getLast?
      = some (Event.ConLogSuccess 7) ∧
    (Task noVirtuals sampleDecoder (constEnvs sampleEnv) 3 (doomedWorld 0x3004)).2.cpu.m_dec
      = none ∧
    (Task noVirtuals sampleDecoder (constEnvs { sampleEnv with TestDestroy := true }) 3
      (doomedWorld 0x1000)).2.cpu.m_dec = none := by
  have h := Task_exit_paths noVirtuals sampleDecoder (constEnvs sampleEnv) 3 (doomedWorld 0x3000)
  have h4 := Task_exit_paths noVirtuals sampleDecoder (constEnvs sampleEnv) 3 (doomedWorld 0x3004)
  have h1 := Task_exit_paths noVirtuals sampleDecoder
    (constEnvs { sampleEnv with TestDestroy := true }) 3 (doomedWorld 0x1000)
  exact ⟨(h.2.1 7 rfl).1, (h.2.1 7 rfl).2.1, (h4.1 (Or.inr (Or.inr (Or.inr rfl))) rfl).1,
    (h1.1 (Or.inl rfl) rfl).1⟩

/-! ## Close and the stack -/

/-- C16 (as stated) fails: `Close()` on the busy context, whose stack is at `0x10000`,
deletes the decoder and frees no memory when the context is not alive; when it is alive,
`Close()` and the exit of the loop through the self-free delete the decoder and free the
context, and again no `Memory.Free` is called and the stack address stays `0x10000`. -/
theorem Close_leaves_stack :
    busyWorld.cpu.m_stack_addr = 0x10000 ∧
    (Close sampleEnv busyWorld).trace = [Event.DeleteDec (some 1)] ∧
    (Close sampleEnv busyWorld).cpu.m_stack_addr = 0x10000 ∧
    Task noVirtuals sampleDecoder (constEnvs { sampleEnv with TestDestroy := true }) 1
        (Close { sampleEnv with IsAlive := true } busyWorld)
      = (TaskExit.statusBreak,
          { cpu := { busyThread with m_free_data := true, m_dec := none },
            trace := [Event.ThreadBaseStop, Event.DeleteDec (some 1), Event.FreeThis] }) := by
  decide

/-- C16 (amended): `Close()` releases the decoder and not the stack. On a context that is
not alive it deletes the decoder, calls no `Memory.Free` and leaves the stack members; on
an alive context it sets `m_free_data`, asks the worker to stop and leaves the stack
members; the dispatch loop never calls `Memory.Free`, and when it exits with `m_free_data`
set by a `break` or a caught textual fault it deletes the decoder and frees the context. -/
theorem Close_releases_decoder_only (env : Env) (w : World) :
    (env.IsAlive = false →
      (Close env w).cpu.m_dec = none ∧
      (Close env w).trace = w.trace ++ [Event.DeleteDec w.cpu.m_dec] ∧
      pcCycleStack (Close env w).cpu = pcCycleStack w.cpu) ∧
    (env.IsAlive = true →
      (Close env w).cpu.m_free_data = true ∧
      (Close env w).trace = w.trace ++ [Event.ThreadBaseStop] ∧
      pcCycleStack (Close env w).cpu = pcCycleStack w.cpu) ∧
    (∀ (V : VirtualId → CPUThread → CPUThread) (D : Nat → CPUThread → DecodeResult)
        (envs : Nat → Env) (fuel : Nat) (x : World),
      ((Task V D envs fuel x).2.trace.drop x.trace.length).filter isMemoryFree = [] ∧
      (((Task V D envs fuel x).1 = TaskExit.statusBreak ∨
          (Task V D envs fuel x).1 = TaskExit.stepBreak ∨
          (Task V D envs fuel x).1 = TaskExit.caughtString ∨
          (Task V D envs fuel x).1 = TaskExit.caughtChars) →
        (Task V D envs fuel x).2.cpu.m_free_data = true →
        (Task V D envs fuel x).2.cpu.m_dec = none ∧
        ∃ d : Option Nat,
          ((Task V D envs fuel x).2.trace.drop x.trace.length).filter isRelease
            = [Event.DeleteDec d, Event.FreeThis])) := by
  refine ⟨?_, ?_, ?_⟩
  · intro h
    simp [Close, h, emit, pcCycleStack]
  · intro h
    simp [Close, h, emit, pcCycleStack]
  · intro V D envs fuel x
    exact ⟨Task_no_memory_free V D envs fuel x,
      fun hx hfree => Task_releases_on_normal_exit V D envs fuel x hx hfree⟩

/-- C16 (amended) at the busy context: closed while not alive, the decoder is gone and the
stack members are as before. -/
theorem Close_releases_decoder_only_witness :
    (Close sampleEnv busyWorld).cpu.m_dec = none ∧
    pcCycleStack (Close sampleEnv busyWorld).cpu = (0x1000, 9, 0x10000, 0x1000, 0x10ff0) := by
  have h := (Close_releases_decoder_only sampleEnv busyWorld).1 rfl
  exact ⟨h.1, h.2.2.trans rfl⟩

/-! ## Error flags and the operations that leave them -/

/-- One pass of the loop leaves the error flags, when the `Step()` hook and the decoder do
not write them. -/
theorem TaskIteration_error (V : VirtualId → CPUThread → CPUThread)
    (D : Nat → CPUThread → DecodeResult) (env : Env) (bp : List Nat) (w : World)
    (hV : Keeps errorField (V VirtualId.Step)) (hD : DecoderKeeps errorField D) :
    (TaskIteration V D env bp w).world.cpu.m_error = w.cpu.m_error := by
  have hstep : (V VirtualId.Step w.cpu).m_error = w.cpu.m_error := hV w.cpu
  have hdec : (D (decodeAddr V w) (V VirtualId.Step w.cpu)).cpu.m_error
      = (V VirtualId.Step w.cpu).m_error := hD _ _
  by_cases h1 : ThreadStatus env w = CPUThreadStatus.CPUThread_Stopped ∨
      ThreadStatus env w = CPUThreadStatus.CPUThread_Break
  · simp [TaskIteration, h1, IterationResult.world]
  by_cases h2 : ThreadStatus env w = CPUThreadStatus.CPUThread_Sleeping
  · simp [TaskIteration, h1, h2, IterationResult.world, emit]
  cases hres : D (decodeAddr V w) (V VirtualId.Step w.cpu) with
  | throwString c =>
    rw [hres] at hdec
    unfold decodeAddr at hres
    simp only [DecodeResult.cpu] at hdec
    simp [TaskIteration, h1, h2, callVirtual, emit, hres, IterationResult.world, hdec, hstep]
  | throwChars c =>
    rw [hres] at hdec
    unfold decodeAddr at hres
    simp only [DecodeResult.cpu] at hdec
    simp [TaskIteration, h1, h2, callVirtual, emit, hres, IterationResult.world, hdec, hstep]
  | throwInt exitcode c =>
    rw [hres] at hdec
    unfold decodeAddr at hres
    simp only [DecodeResult.cpu] at hdec
    simp [TaskIteration, h1, h2, callVirtual, emit, hres, IterationResult.world, hdec, hstep]
  | throwOther c =>
    rw [hres] at hdec
    unfold decodeAddr at hres
    simp only [DecodeResult.cpu] at hdec
    simp [TaskIteration, h1, h2, callVirtual, emit, hres, IterationResult.world, hdec, hstep]
  | size n c =>
    rw [hres] at hdec
    unfold decodeAddr at hres
    simp only [DecodeResult.cpu] at hdec
    have hnext : ∀ x : World, (NextPc (u8 n) x).cpu.m_error = x.cpu.m_error := by
      intro x
      unfold NextPc
      split <;> rfl
    by_cases h3 : ThreadStatus env w = CPUThreadStatus.CPUThread_Step
    · simp [TaskIteration, h3, callVirtual, emit, hres, IterationResult.world, hdec, hstep,
        hnext]
    · simp [TaskIteration, h1, h2, h3, callVirtual, emit, hres, IterationResult.world, hdec,
        hstep, hnext, breakPointCheck_cpu]

/-- The loop leaves the error flags, when the `Step()` hook and the decoder do not write
them. -/
theorem TaskLoop_error (V : VirtualId → CPUThread → CPUThread)
    (D : Nat → CPUThread → DecodeResult) (envs : Nat → Env) (bp : List Nat)
    (hV : Keeps errorField (V VirtualId.Step)) (hD : DecoderKeeps errorField D) (fuel : Nat) :
    ∀ (k : Nat) (w : World),
      (TaskLoop V D envs bp fuel k w).2.cpu.m_error = w.cpu.m_error := by
  induction fuel with
  | zero =>
    intro k w
    simp [TaskLoop]
  | succ fuel ih =>
    intro k w
    have h := TaskIteration_error V D (envs k) bp w hV hD
    simp only [TaskLoop]
    cases hit : TaskIteration V D (envs k) bp w with
    | exit x w1 =>
      rw [hit] at h
      exact h
    | next w1 =>
      rw [hit] at h
      simp only [IterationResult.world] at h
      simp only []
      rw [ih (k + 1) w1, h]

/-- `Task` leaves the error flags, when the `Step()` hook and the decoder do not write
them. -/
theorem Task_error (V : VirtualId → CPUThread → CPUThread)
    (D : Nat → CPUThread → DecodeResult) (envs : Nat → Env)
    (hV : Keeps errorField (V VirtualId.Step)) (hD : DecoderKeeps errorField D) (fuel : Nat)
    (w : World) : (Task V D envs fuel w).2.cpu.m_error = w.cpu.m_error := by
  have h := TaskLoop_error V D envs (envs 0).BreakPoints hV hD fuel 0
    (breakPointCheck (envs 0).BreakPoints (u64 (w.cpu.m_offset + w.cpu.PC)) w)
  rw [breakPointCheck_cpu] at h
  rcases hL : TaskLoop V D envs (envs 0).BreakPoints fuel 0
    (breakPointCheck (envs 0).BreakPoints (u64 (w.cpu.m_offset + w.cpu.PC)) w) with ⟨x, w1⟩
  rw [hL] at h
  simp only at h
  cases x <;> cases hf : w1.cpu.m_free_data <;>
    simp [Task, hL, TaskCleanup, emit, hf, h]

/-- C18: `SetError(0)` sets the flags to `0`; `SetError(c)` with `c` non-zero sets them to
`f | c`, so every bit set before is still set. `NextPc`, `SetBranch`, `SetPc` and both
`Wait` overloads leave the flags; so do `Pause`, `Resume` and the dispatch loop, when the
hooks they call and the decoder do not write the flags. -/
theorem SetError_sticky (QT_UI : Bool) (V : VirtualId → CPUThread → CPUThread)
    (D : Nat → CPUThread → DecodeResult) (w : World) (c : Nat) :
    (SetError 0 w).cpu.m_error = 0 ∧
    (c ≠ 0 →
      (SetError c w).cpu.m_error = w.cpu.m_error ||| c ∧
      ∀ i : Nat, w.cpu.m_error.testBit i = true →
        (SetError c w).cpu.m_error.testBit i = true) ∧
    (∀ (env : Env) (s t pc : Nat) (r b : Bool) (thr : CPUThread),
      (NextPc s w).cpu.m_error = w.cpu.m_error ∧
      (SetBranch env t r w).cpu.m_error = w.cpu.m_error ∧
      (SetPc pc w).cpu.m_error = w.cpu.m_error ∧
      (Wait b w).cpu.m_error = w.cpu.m_error ∧
      (WaitThread thr w).cpu.m_error = w.cpu.m_error) ∧
    (Keeps errorField (V VirtualId.DoPause) →
      (Pause QT_UI V w).cpu.m_error = w.cpu.m_error) ∧
    (Keeps errorField (V VirtualId.DoResume) →
      (Resume QT_UI V w).cpu.m_error = w.cpu.m_error) ∧
    (Keeps errorField (V VirtualId.Step) → DecoderKeeps errorField D →
      ∀ (envs : Nat → Env) (fuel : Nat),
        (Task V D envs fuel w).2.cpu.m_error = w.cpu.m_error) := by
  refine ⟨by simp [SetError], ?_, ?_, ?_, ?_, ?_⟩
  · intro hc
    refine ⟨by simp [SetError, hc], ?_⟩
    intro i hi
    simp [SetError, hc, Nat.testBit_or, hi]
  · intro env s t pc r b thr
    refine ⟨?_, ?_, rfl, rfl, rfl⟩
    · unfold NextPc
      split <;> rfl
    · cases r <;> cases hg : env.IsGoodAddr (u64 (w.cpu.m_offset + t)) <;>
        simp [SetBranch, emit, hg]
  · intro hk
    have hk2 : ∀ x, (V VirtualId.DoPause x).m_error = x.m_error := hk
    cases QT_UI <;> cases hs : w.cpu.m_status <;>
      simp [Pause, IsRunning, hs, SendDbgCommand, callVirtual, emit, hk2]
  · intro hk
    have hk2 : ∀ x, (V VirtualId.DoResume x).m_error = x.m_error := hk
    cases QT_UI <;> cases hs : w.cpu.m_status <;>
      simp [Resume, IsPaused, hs, SendDbgCommand, callVirtual, emit, hk2]
  · intro hV hD envs fuel
    exact Task_error V D envs hV hD fuel w

/-- C18 at the busy context, whose flags are `5`: `SetError(2)` gives `7`, and a run of the
dispatch loop over three instructions, a pause and a resume leave the flags at `5`. -/
theorem SetError_sticky_witness :
    (SetError 2 busyWorld).cpu.m_error = 7 ∧
    (Task noVirtuals sampleDecoder (stopAt 3 sampleEnv) 9
      { busyWorld with cpu := { busyThread with m_sync_wait := false } }).2.cpu.m_error = 5 ∧
    (Resume false stackVirtuals (Pause false stackVirtuals busyWorld)).cpu.m_error = 5 := by
  have h := SetError_sticky false noVirtuals sampleDecoder busyWorld 2
  have h2 := SetError_sticky false noVirtuals sampleDecoder
    { busyWorld with cpu := { busyThread with m_sync_wait := false } } 2
  have h3 := SetError_sticky false stackVirtuals sampleDecoder
    (Pause false stackVirtuals busyWorld) 2
  have h4 := SetError_sticky false stackVirtuals sampleDecoder busyWorld 2
  refine ⟨(h.2.1 (by decide)).1.trans (by decide), ?_, ?_⟩
  · refine (h2.2.2.2.2.2 (fun _ => rfl) ?_ (stopAt 3 sampleEnv) 9).trans rfl
    intro addr c
    simp only [sampleDecoder]
    split_ifs <;> rfl
  · rw [h3.2.2.2.2.1 (fun _ => rfl), h4.2.2.2.1 (fun _ => rfl)]
    rfl

/-! ## Blocking on another context -/

end Rpcs3
